import Mathlib

/-!
Verification development for the Yuelly TCP client/coordinator
(custom_components/yuelly). The Python modules `client.py` and
`coordinator.py` are shallowly embedded: device records (JSON objects) become
association lists of attribute values, the byte-stream framer becomes a
recursive frame extractor over lists of bytes, and the connection lifecycle
(sockets, reconnect/heartbeat timers scheduled through async_call_later)
becomes a state machine with explicit handle bookkeeping. Timer handles are
modelled as cancellable (the source guards each cancel with an isinstance
check on the stored handle; we model the guard as passing, which is the
reading under which the spec's cancellation discipline has a chance to hold).
-/

namespace Yuelly

/-- Attribute values occurring in device-record JSON objects, following the
spec's data model for records: string, number, boolean, null, or a list of
strings (used by modeList). -/
inductive AttrVal where
  | null
  | b (v : Bool)
  | n (v : Int)
  | s (v : String)
  | ls (v : List String)
deriving DecidableEq, Repr

/-- A device record: a JSON object, represented as its key/value entry list
(keys unique, insertion order). Structural equality of these lists models
Python dict equality as used by `self.data.get(device_id) != device`. -/
abbrev Record := List (String × AttrVal)

/-- The device registry `self.data`: device id (an attribute value, normally a
string) mapped to the last stored record. -/
abbrev Store := List (AttrVal × Record)

/-- Dictionary lookup (`d.get(k)`): first entry with the given key. -/
def dictGet (d : Record) (k : String) : Option AttrVal :=
  match d with
  | [] => none
  | (k', v) :: t => if k' = k then some v else dictGet t k

/-- Dictionary update (`d[k] = v`): replace the first entry with the key, or
append a new entry. -/
def dictSet (d : Record) (k : String) (v : AttrVal) : Record :=
  match d with
  | [] => [(k, v)]
  | (k', v') :: t => if k' = k then (k, v) :: t else (k', v') :: dictSet t k v

/-- Registry lookup (`self.data.get(device_id)`). -/
def alGet (st : Store) (k : AttrVal) : Option Record :=
  match st with
  | [] => none
  | (k', v) :: t => if k' = k then some v else alGet t k

/-- Registry update (`self.data[device_id] = device`). -/
def alSet (st : Store) (k : AttrVal) (v : Record) : Store :=
  match st with
  | [] => [(k, v)]
  | (k', v') :: t => if k' = k then (k, v) :: t else (k', v') :: alSet t k v

/-- Keys of the registry map. -/
def storeKeys (st : Store) : List AttrVal := st.map (·.1)

/-- Python truthiness of an attribute value, as used by `if device_id:`. -/
def pyTruthy : AttrVal → Bool
  | .null => false
  | .b v => v
  | .n v => v != 0
  | .s v => v != ""
  | .ls v => !v.isEmpty

/-- The id under which a record is stored, if any: `device.get("id")` when the
result is truthy, none otherwise (missing key or falsy value is skipped). -/
def goodRecId (d : Record) : Option AttrVal :=
  (dictGet d "id").bind (fun i => if pyTruthy i then some i else none)

/-- Loop body of `YuellyClient._handle_device_data`: for each record, read the
id; when truthy, compare the stored record and replace it when different,
recording that data changed. -/
def handle_device_loop (store : Store) (changed : Bool) : List Record → Store × Bool
  | [] => (store, changed)
  | device :: rest =>
    match dictGet device "id" with
    | none => handle_device_loop store changed rest
    | some did =>
      if pyTruthy did then
        if alGet store did ≠ some device then
          handle_device_loop (alSet store did device) true rest
        else
          handle_device_loop store changed rest
      else
        handle_device_loop store changed rest

/-- `YuellyClient._handle_device_data(device_list)`: fold the loop body over the
batch starting from an unchanged flag; the caller notifies the coordinator
once, after the loop, exactly when the flag ends true (and a coordinator is
set). -/
def handle_device_data (store : Store) (deviceList : List Record) : Store × Bool :=
  handle_device_loop store false deviceList

/-- The record stored last for a given id by a batch, if the batch stores one:
the last record of the list whose truthy id equals the key. -/
def lastWithId : List Record → AttrVal → Option Record
  | [], _ => none
  | d :: rest, i =>
    match lastWithId rest i with
    | some r => some r
    | none => if goodRecId d = some i then some d else none

/-- The record the registry currently holds under a record's own (truthy) id. -/
def storedUnder (store : Store) (d : Record) : Option Record :=
  (goodRecId d).bind (alGet store)

/-! ## Framing -/

/-- The frame delimiter `b"$$##"` (`MESSAGE_DELIMITER` in const.py), as bytes. -/
def MESSAGE_DELIMITER : List Nat := [36, 36, 35, 35]

/-- Index of the first occurrence of the delimiter in the buffer
(`self._buffer.split(MESSAGE_DELIMITER, 1)` splits there; `MESSAGE_DELIMITER
in self._buffer` tests whether one exists). -/
def findDelim (b : List Nat) : Option Nat :=
  match b with
  | [] => none
  | l@(_ :: t) =>
    if MESSAGE_DELIMITER.isPrefixOf l then some 0
    else (findDelim t).map (· + 1)

/-- Fuelled worker for frame extraction; the fuel is an upper bound on the
buffer length, and each extracted frame removes at least the four delimiter
bytes, so `b.length` fuel always suffices. -/
def extractFramesAux : Nat → List Nat → List (List Nat) × List Nat
  | 0, b => ([], b)
  | fuel + 1, b =>
    match findDelim b with
    | none => ([], b)
    | some i =>
      let p := extractFramesAux fuel (b.drop (i + 4))
      (b.take i :: p.1, p.2)

/-- The framing loop of `YuellyClient._process_buffer`: repeatedly split the
buffer at the first delimiter, collecting the complete frames in order and
returning the leftover buffer. -/
def extractFrames (b : List Nat) : List (List Nat) × List Nat :=
  extractFramesAux b.length b

/-- One read of `YuellyClient._listen` followed by framing: append the chunk to
the holdover buffer, extract the complete frames. The state is (frames
emitted so far, leftover buffer). -/
def feedChunk (st : List (List Nat) × List Nat) (chunk : List Nat) :
    List (List Nat) × List Nat :=
  let p := extractFrames (st.2 ++ chunk)
  (st.1 ++ p.1, p.2)

/-- Feed a whole sequence of read chunks through the framer, starting from the
empty buffer (`self._buffer = b""` in `__init__`). -/
def feedChunks (chunks : List (List Nat)) : List (List Nat) × List Nat :=
  chunks.foldl feedChunk ([], [])

/-! ## Session state machine

`YuellyClient` holds `_reader`/`_writer` (always set and cleared together, so
they are modelled as one socket handle), the two `async_call_later` handles
`_reconnect_task` and `_heartbeat_task`, the `_listen` task, the running flag,
the byte buffer and the registry. To reason about resource discipline the
model additionally tracks every socket that was opened and never closed
(`openSockets`) and every timer that was armed and neither cancelled nor fired
(`liveTimers`); `nextId` supplies fresh handles. -/

/-- Kind of a delayed callback armed through async_call_later. -/
inductive TimerKind where
  | reconnect
  | heartbeat
deriving DecidableEq, Repr

/-- A message written to the socket (serialization to JSON plus delimiter is
abstracted to the message value). -/
inductive WireMsg where
  | command (cmd : Record) (token : Option String)
  | heartbeatMsg (deviceData : List Record) (token : Option String)
deriving DecidableEq, Repr

/-- State of a `YuellyClient` instance. -/
structure ClientState where
  running : Bool
  sock : Option Nat
  token : Option String
  reconnectTask : Option Nat
  heartbeatTask : Option Nat
  listenTask : Option Nat
  openSockets : List Nat
  liveTimers : List (Nat × TimerKind)
  buffer : List Nat
  data : Store
  coordinatorSet : Bool
  decodeErrors : Nat
  nextId : Nat
deriving DecidableEq, Repr

/-- Freshly constructed client after the integration wiring (`__init__` plus
`set_update_coordinator`, which the coordinator constructor always calls). -/
def initClient : ClientState :=
  { running := true, sock := none, token := none, reconnectTask := none,
    heartbeatTask := none, listenTask := none, openSockets := [],
    liveTimers := [], buffer := [], data := [], coordinatorSet := true,
    decodeErrors := 0, nextId := 0 }

/-- Cancel the timer with the given handle: it will no longer fire. -/
def cancelTimer (ts : List (Nat × TimerKind)) (h : Nat) : List (Nat × TimerKind) :=
  ts.filter (fun p => p.1 ≠ h)

/-- Lines 97-100 of client.py (`connect`): if a reconnect handle is stored,
cancel it and clear the field. -/
def clearReconnectTimer (st : ClientState) : ClientState :=
  match st.reconnectTask with
  | some h => { st with liveTimers := cancelTimer st.liveTimers h, reconnectTask := none }
  | none => st

/-- Lines 101-104 of client.py (`connect`), also lines 140-143
(`_close_connection`) and 262-265 (`_start_heartbeat`): if a heartbeat handle
is stored, cancel it and clear the field. -/
def clearHeartbeatTimer (st : ClientState) : ClientState :=
  match st.heartbeatTask with
  | some h => { st with liveTimers := cancelTimer st.liveTimers h, heartbeatTask := none }
  | none => st

/-- Arm a reconnect callback through async_call_later and store its handle. -/
def armReconnect (st : ClientState) : ClientState :=
  { st with liveTimers := st.liveTimers ++ [(st.nextId, TimerKind.reconnect)],
            reconnectTask := some st.nextId, nextId := st.nextId + 1 }

/-- Arm a heartbeat callback through async_call_later and store its handle. -/
def armHeartbeat (st : ClientState) : ClientState :=
  { st with liveTimers := st.liveTimers ++ [(st.nextId, TimerKind.heartbeat)],
            heartbeatTask := some st.nextId, nextId := st.nextId + 1 }

/-- `YuellyClient._start_heartbeat`: cancel any stored heartbeat handle, then
arm a new heartbeat callback. -/
def start_heartbeat (st : ClientState) : ClientState :=
  armHeartbeat (clearHeartbeatTimer st)

/-- `YuellyClient._schedule_reconnect`: cancel any stored reconnect handle,
clear the field, then arm a new reconnect callback. -/
def schedule_reconnect (st : ClientState) : ClientState :=
  armReconnect (clearReconnectTimer st)

/-- Success path of `connect`, step 1: `self._reader, self._writer = await
asyncio.open_connection(...)` — install a fresh socket as the live handle.
The previously live socket, if any, is not closed. -/
def connect_install (st : ClientState) : ClientState :=
  { st with sock := some st.nextId, openSockets := st.openSockets ++ [st.nextId],
            nextId := st.nextId + 1 }

/-- Success path of `connect`, step 3: `self._listen_task =
self.hass.async_create_task(self._listen())`. -/
def connect_start_listen (st : ClientState) : ClientState :=
  { st with listenTask := some st.nextId, nextId := st.nextId + 1 }

/-- Success path of `YuellyClient.connect` (lines 90-108): open the socket,
cancel the stored reconnect and heartbeat handles, create the listen task and
start the heartbeat. -/
def connect_success (st : ClientState) : ClientState :=
  start_heartbeat
    (connect_start_listen (clearHeartbeatTimer (clearReconnectTimer (connect_install st))))

/-- `YuellyClient.connect`, with the outcome of `asyncio.open_connection`
supplied as `ok`. Returns early when not running; on failure schedules a
reconnect and changes nothing else. -/
def connect (st : ClientState) (ok : Bool) : ClientState :=
  if st.running = false then st
  else if ok then connect_success st
  else schedule_reconnect st

/-- Closing of the socket inside `_close_connection`: `self._writer.close()`
plus the `finally` block clearing the reader/writer fields; a no-op without a
writer. -/
def close_sock (st : ClientState) : ClientState :=
  match st.sock with
  | some s => { st with sock := none, openSockets := st.openSockets.filter (· ≠ s) }
  | none => st

/-- `YuellyClient._close_connection`: cancel the listen task, cancel the stored
heartbeat handle, close the current socket and clear the reader/writer
fields. -/
def close_connection (st : ClientState) : ClientState :=
  close_sock (clearHeartbeatTimer { st with listenTask := none })

/-- `YuellyClient._handle_disconnect`: a no-op when not running; otherwise arm
a reconnect callback (line 168: the field is overwritten, no prior handle is
cancelled) and then run the connection cleanup. -/
def handle_disconnect (st : ClientState) : ClientState :=
  if st.running = false then st
  else close_connection (armReconnect st)

/-- Events driving a client session: a connect attempt with its outcome, and a
read failure inside the listen loop (empty read, reset, or any other error),
which triggers `_handle_disconnect`. -/
inductive ClientEvent where
  | connectAttempt (ok : Bool)
  | readFail
deriving DecidableEq, Repr

/-- One step of the session machine. A read failure can only be signalled by a
running listen task on a live socket. -/
def clientStep (st : ClientState) : ClientEvent → ClientState
  | .connectAttempt ok => connect st ok
  | .readFail =>
    if st.listenTask.isSome && st.sock.isSome && st.running then handle_disconnect st
    else st

/-- Run the session machine from the freshly wired client. -/
def runClient (es : List ClientEvent) : ClientState :=
  es.foldl clientStep initClient

/-- Number of armed-and-live reconnect callbacks. -/
def countReconnect (st : ClientState) : Nat :=
  (st.liveTimers.filter (fun p => p.2 = TimerKind.reconnect)).length

/-- Number of armed-and-live heartbeat callbacks. -/
def countHeartbeat (st : ClientState) : Nat :=
  (st.liveTimers.filter (fun p => p.2 = TimerKind.heartbeat)).length

/-- Timer-handle bookkeeping invariant: live timer handles are pairwise
distinct and below the fresh-id counter, stored task handles are below the
fresh-id counter, and every live timer of a kind carries the handle its kind's
task field tracks (hence at most one live timer per kind). -/
def timerInv (st : ClientState) : Prop :=
  st.liveTimers.Nodup
  ∧ (∀ p ∈ st.liveTimers, p.1 < st.nextId)
  ∧ (∀ h, st.reconnectTask = some h → h < st.nextId)
  ∧ (∀ h, st.heartbeatTask = some h → h < st.nextId)
  ∧ (∀ p ∈ st.liveTimers,
      (p.2 = TimerKind.reconnect → st.reconnectTask = some p.1)
      ∧ (p.2 = TimerKind.heartbeat → st.heartbeatTask = some p.1))

/-! ## Sending -/

/-- `YuellyDataCoordinator.get_known_device_protocols`: one `{id, protocal}`
record per registry entry, the protocol defaulting to 0. -/
def heartbeatPayload (data : Store) : List Record :=
  data.map (fun p => [("id", p.1), ("protocal", (dictGet p.2 "protocal").getD (AttrVal.n 0))])

/-- The token field attached to outgoing frames: the stored token when truthy
(`if self._token:`), nothing otherwise. -/
def tokenField (t : Option String) : Option String :=
  match t with
  | some s => if s ≠ "" then some s else none
  | none => none

/-- `YuellyClient.send_command`: fail fast when there is no writer or the
client is not running (no write, no queueing, state untouched); otherwise
shallow-copy the command, inject the token when truthy, and write the framed
message, `drainOk` giving the outcome of `await self._writer.drain()`. -/
def send_command (st : ClientState) (cmd : Record) (drainOk : Bool) :
    ClientState × Bool × List WireMsg :=
  if st.sock.isNone || !st.running then (st, false, [])
  else
    let cmd2 := match tokenField st.token with
      | some t => dictSet cmd "token" (AttrVal.s t)
      | none => cmd
    (st, drainOk, [WireMsg.command cmd2 (tokenField st.token)])

/-- `YuellyClient.send_heartbeat`: only with a writer, while running, and with
a coordinator set, build the heartbeatToken message from the registry summary
and write it; `drainOk = false` models the write raising (the exception is
caught by the wrapper). Returns the frames written and the call's outcome. -/
def send_heartbeat (st : ClientState) (drainOk : Bool) :
    List WireMsg × Except Unit Bool :=
  if st.sock.isSome && st.running && st.coordinatorSet then
    let msg := WireMsg.heartbeatMsg (heartbeatPayload st.data) (tokenField st.token)
    if drainOk then ([msg], .ok true) else ([msg], .error ())
  else ([], .ok false)

/-- `YuellyClient._send_heartbeat_wrapper`: attempt the heartbeat (exceptions
are caught and logged), then reschedule through `_start_heartbeat` exactly
when still running with a writer. Returns the new state, the frames written,
and whether the next heartbeat was rescheduled. -/
def heartbeat_wrapper (st : ClientState) (drainOk : Bool) :
    ClientState × List WireMsg × Bool :=
  let ws := (send_heartbeat st drainOk).1
  if st.running && st.sock.isSome then (start_heartbeat st, ws, true)
  else (st, ws, false)

/-! ## Buffer processing -/

/-- Handling of one extracted frame in `_process_buffer`. Decoding
(`decode("utf-8", errors="ignore").strip()` followed by `json.loads` and the
`type`/`data` field reads) is abstracted into the `loads` parameter: `none`
models a `json.JSONDecodeError` (or any other per-frame processing error),
which is caught inside the loop, logged, and counted here; `some (isDevice,
devs)` models a decoded message, forwarded to `_handle_device_data` exactly
when its type is "device". -/
def processFrame (loads : List Nat → Option (Bool × List Record))
    (acc : Store × Nat) (frame : List Nat) : Store × Nat :=
  match loads frame with
  | none => (acc.1, acc.2 + 1)
  | some (isDevice, devs) =>
    if isDevice then ((handle_device_data acc.1 devs).1, acc.2) else acc

/-- `YuellyClient._process_buffer`: extract every complete frame from the
buffer and handle each in order; the leftover bytes become the new buffer.
Only the buffer, the registry and the error count can change. -/
def process_buffer (loads : List Nat → Option (Bool × List Record))
    (st : ClientState) : ClientState :=
  let p := extractFrames st.buffer
  let acc := p.1.foldl (processFrame loads) (st.data, st.decodeErrors)
  { st with buffer := p.2, data := acc.1, decodeErrors := acc.2 }

/-- One iteration of the `_listen` read loop on received bytes: append the
chunk to the buffer, then process the buffer. -/
def listen_step (loads : List Nat → Option (Bool × List Record))
    (st : ClientState) (chunk : List Nat) : ClientState :=
  process_buffer loads { st with buffer := st.buffer ++ chunk }

/-! ## Coordinator (registry/dispatcher)

`YuellyDataCoordinator` owns the known-ids set and the four per-platform
entity-adder slots; its `notify_data_received` walks the registry, creates
entity descriptors for every not-yet-known device, and hands each platform's
list to that platform's registered adder, if any. -/

/-- The four platform slots of `self._async_add_entities`. -/
inductive HAPlatform where
  | switch
  | sensor
  | number
  | select
deriving DecidableEq, Repr

/-- Coordinator state: the registry it shares with the client, the known-ids
set, and which platform adders are registered. -/
structure CoordState where
  data : Store
  knownIds : List AttrVal
  sinkSwitch : Bool
  sinkSensor : Bool
  sinkNumber : Bool
  sinkSelect : Bool
deriving DecidableEq, Repr

/-- Freshly constructed coordinator: no adders registered, no known ids, empty
registry. -/
def initCoord : CoordState :=
  { data := [], knownIds := [], sinkSwitch := false, sinkSensor := false,
    sinkNumber := false, sinkSelect := false }

/-- Whether the adder for a platform is registered. -/
def sinkOf (st : CoordState) : HAPlatform → Bool
  | .switch => st.sinkSwitch
  | .sensor => st.sinkSensor
  | .number => st.sinkNumber
  | .select => st.sinkSelect

/-- `any(self._async_add_entities.values())`. -/
def anySink (st : CoordState) : Bool :=
  st.sinkSwitch || st.sinkSensor || st.sinkNumber || st.sinkSelect

/-- Field presence as tested by `device_data.get(k) is not None`: the key is
present and its value is not JSON null. -/
def hasField (rec : Record) (k : String) : Bool :=
  match dictGet rec k with
  | some v => v ≠ AttrVal.null
  | none => false

/-- Observable outcome of one `notify_data_received` call: the ids newly
discovered by this call, and the (platform, device id) pairs actually handed
to a registered adder. -/
structure NotifyOut where
  discovered : List AttrVal
  delivered : List (HAPlatform × AttrVal)
deriving DecidableEq, Repr

/-- The registry entries not yet in known-ids: the devices the discovery loop
treats as new. -/
def newDevices (st : CoordState) : Store :=
  st.data.filter (fun p => p.1 ∉ st.knownIds)

/-- Ids of the newly discovered devices, in registry order (one switch entity
is always built per new device). -/
def discoveredIds (st : CoordState) : List AttrVal :=
  (newDevices st).map (·.1)

/-- New devices given a temperature sensor entity (`temp` present). -/
def sensorIds (st : CoordState) : List AttrVal :=
  ((newDevices st).filter (fun p => hasField p.2 "temp")).map (·.1)

/-- New devices given a setpoint number entity (`setTemp` present). -/
def numberIds (st : CoordState) : List AttrVal :=
  ((newDevices st).filter (fun p => hasField p.2 "setTemp")).map (·.1)

/-- New devices given a mode select entity (`mode` and `modeList` present). -/
def selectIds (st : CoordState) : List AttrVal :=
  ((newDevices st).filter (fun p => hasField p.2 "mode" && hasField p.2 "modeList")).map (·.1)

/-- The (platform, device) pairs actually handed to an adder: each platform's
nonempty entity list is dispatched only when that platform's adder is
registered, and dropped otherwise. -/
def deliveredPairs (st : CoordState) : List (HAPlatform × AttrVal) :=
  (if !(discoveredIds st).isEmpty && st.sinkSwitch then
    (discoveredIds st).map (fun i => (HAPlatform.switch, i)) else [])
  ++ (if !(sensorIds st).isEmpty && st.sinkSensor then
    (sensorIds st).map (fun i => (HAPlatform.sensor, i)) else [])
  ++ (if !(numberIds st).isEmpty && st.sinkNumber then
    (numberIds st).map (fun i => (HAPlatform.number, i)) else [])
  ++ (if !(selectIds st).isEmpty && st.sinkSelect then
    (selectIds st).map (fun i => (HAPlatform.select, i)) else [])

/-- `YuellyDataCoordinator.notify_data_received`. When at least one adder is
registered: walk the registry, and for each device not in known-ids build a
switch entity always, a sensor entity when `temp` is present, a number entity
when `setTemp` is present and a select entity when both `mode` and `modeList`
are present, adding the id to known-ids; then hand each platform's nonempty
list to its adder when that adder is registered, dropping it otherwise. When
no adder at all is registered the whole discovery pass is skipped. (The final
`async_set_updated_data` update broadcast carries no discovery information and
is not modelled.) -/
def notify_data_received (st : CoordState) : CoordState × NotifyOut :=
  if anySink st then
    ({ st with knownIds := st.knownIds ++ discoveredIds st },
     { discovered := discoveredIds st, delivered := deliveredPairs st })
  else (st, { discovered := [], delivered := [] })

/-- `YuellyDataCoordinator.set_entity_adder`: register the platform's adder and
add every device currently in the registry to known-ids (so that already
present devices are not re-added when discovery next runs). -/
def set_entity_adder (st : CoordState) (p : HAPlatform) : CoordState :=
  let st1 := match p with
    | .switch => { st with sinkSwitch := true }
    | .sensor => { st with sinkSensor := true }
    | .number => { st with sinkNumber := true }
    | .select => { st with sinkSelect := true }
  { st1 with knownIds := st1.knownIds ++ storeKeys st1.data }

/-- Events driving the coordinator: an ingested device batch (forwarded by the
client, which notifies exactly when `_handle_device_data` reported a change —
the coordinator reference is always set by the wiring in `__init__.py`), and a
platform registering its adder. -/
inductive CoordEvent where
  | ingest (batch : List Record)
  | setAdder (p : HAPlatform)
deriving DecidableEq, Repr

/-- One coordinator step; `none` output means `notify_data_received` did not
run. -/
def coordStep (st : CoordState) : CoordEvent → CoordState × Option NotifyOut
  | .ingest batch =>
    let r := handle_device_data st.data batch
    let st2 := { st with data := r.1 }
    if r.2 then
      let n := notify_data_received st2
      (n.1, some n.2)
    else (st2, none)
  | .setAdder p => (set_entity_adder st p, none)

/-- Run the coordinator machine, collecting the outputs of every
`notify_data_received` call in order. -/
def runCoord : CoordState → List CoordEvent → CoordState × List NotifyOut
  | st, [] => (st, [])
  | st, e :: es =>
    let r := coordStep st e
    let rest := runCoord r.1 es
    (rest.1, r.2.toList ++ rest.2)

/-- Number of notify calls across a session in which the given id was newly
discovered. -/
def discoveryCount (outs : List NotifyOut) (d : AttrVal) : Nat :=
  (outs.filter (fun o => d ∈ o.discovered)).length

/-! ## Claim C6: send while disconnected -/

/-- C6: for every command, `send_command` invoked without a live writer returns
false, writes nothing to any socket, and leaves the state unchanged (in
particular nothing is queued: the client has no outbound queue). -/
theorem C6_send_disconnected (st : ClientState) (cmd : Record) (drainOk : Bool)
    (h : st.sock = none) :
    send_command st cmd drainOk = (st, false, []) := by
  simp [send_command, h]

/-- Witness for C6 at a concrete disconnected state. -/
theorem C6_send_disconnected_witness :
    send_command initClient [("id", AttrVal.s "A")] true = (initClient, false, []) :=
  C6_send_disconnected initClient [("id", AttrVal.s "A")] true rfl

/-! ## Claim C7: heartbeat gating and rescheduling -/

/-- The heartbeat restart always leaves a stored, armed heartbeat handle. -/
lemma start_heartbeat_arms (st : ClientState) :
    ∃ h, (start_heartbeat st).heartbeatTask = some h ∧
      (h, TimerKind.heartbeat) ∈ (start_heartbeat st).liveTimers := by
  refine ⟨(clearHeartbeatTimer st).nextId, rfl, ?_⟩
  simp [start_heartbeat, armHeartbeat]

/-- C7: a heartbeat frame is never written while there is no live socket, and
the wrapper reschedules the next heartbeat exactly when the client is still
running with a live socket — for both outcomes of the send attempt — leaving
an armed heartbeat timer behind; when not running, or with no socket, nothing
is rescheduled and the state is unchanged. -/
theorem C7_heartbeat_gating (st : ClientState) (drainOk : Bool) :
    (st.sock = none →
      (heartbeat_wrapper st drainOk).2.1 = []
      ∧ (heartbeat_wrapper st drainOk).2.2 = false
      ∧ (heartbeat_wrapper st drainOk).1 = st)
    ∧ (st.running = true → st.sock.isSome = true →
      (heartbeat_wrapper st drainOk).2.2 = true
      ∧ ∃ h, (heartbeat_wrapper st drainOk).1.heartbeatTask = some h
          ∧ (h, TimerKind.heartbeat) ∈ (heartbeat_wrapper st drainOk).1.liveTimers)
    ∧ (st.running = false →
      (heartbeat_wrapper st drainOk).2.2 = false
      ∧ (heartbeat_wrapper st drainOk).1 = st) := by
  refine ⟨fun h => ?_, fun hr hs => ?_, fun hr => ?_⟩
  · simp [heartbeat_wrapper, send_heartbeat, h]
  · constructor
    · simp [heartbeat_wrapper, hr, hs]
    · simpa [heartbeat_wrapper, hr, hs] using start_heartbeat_arms st
  · simp [heartbeat_wrapper, hr]

/-- Witness for C7 at a concrete connected state: heartbeat rescheduled even
when the send attempt fails; and at the fresh disconnected state: no frame
written. -/
theorem C7_heartbeat_gating_witness :
    ((heartbeat_wrapper initClient true).2.1 = []
      ∧ (heartbeat_wrapper (runClient [ClientEvent.connectAttempt true]) false).2.2 = true) := by
  refine ⟨((C7_heartbeat_gating initClient true).1 rfl).1, ?_⟩
  exact ((C7_heartbeat_gating (runClient [ClientEvent.connectAttempt true]) false).2.1
    (by decide) (by decide)).1

/-! ## Claim C1: connect() idempotence -/

/-- Counterexample to C1: from the fresh client, one successful `connect`
leaves the session connected on socket 0; a second `connect` while already
connected is not a no-op — it opens socket 3 and replaces the live handle, and
both sockets are then open while the session is connected. -/
theorem C1_counterexample :
    (runClient [ClientEvent.connectAttempt true]).sock = some 0
    ∧ (runClient [ClientEvent.connectAttempt true,
        ClientEvent.connectAttempt true]).sock = some 3
    ∧ (runClient [ClientEvent.connectAttempt true,
        ClientEvent.connectAttempt true]).openSockets = [0, 3] := by
  decide

/-- C1 as amended: `connect` is guarded only by the running flag. When shut
down it is a no-op; when running, a successful attempt always installs a fresh
socket as the live handle and adds it to the open set without closing the
previous one, so calling it while already connected replaces the live
connection and leaves two sockets open. -/
theorem C1_connect_guard (st : ClientState) :
    (st.running = false → ∀ ok, connect st ok = st)
    ∧ (st.running = true →
        (connect st true).sock = some st.nextId
        ∧ (connect st true).openSockets = st.openSockets ++ [st.nextId]) := by
  constructor
  · intro h ok
    simp [connect, h]
  · intro h
    unfold connect connect_success connect_start_listen connect_install
    simp only [h]
    cases hr : st.reconnectTask <;> cases hh : st.heartbeatTask <;>
      simp [start_heartbeat, armHeartbeat, clearHeartbeatTimer, clearReconnectTimer, hr, hh]

/-! ## Ingest lemmas (shared by C4 and C10) -/

lemma alGet_set_self (s : Store) (k : AttrVal) (v : Record) :
    alGet (alSet s k v) k = some v := by
  induction s with
  | nil => simp [alGet, alSet]
  | cons p t ih =>
    by_cases h : p.1 = k
    · simp [alSet, alGet, h]
    · simp [alSet, alGet, h, ih]

lemma alGet_set_ne (s : Store) (k k' : AttrVal) (v : Record) (h : k ≠ k') :
    alGet (alSet s k v) k' = alGet s k' := by
  induction s with
  | nil => simp [alGet, alSet, h]
  | cons p t ih =>
    by_cases hp : p.1 = k
    · simp [alSet, alGet, hp, h]
    · simp [alSet, alGet, hp, ih]

lemma storeKeys_set (s : Store) (k : AttrVal) (v : Record) :
    ∀ k' ∈ storeKeys (alSet s k v), k' ∈ storeKeys s ∨ k' = k := by
  induction s with
  | nil => simp [storeKeys, alSet]
  | cons p t ih =>
    intro k' hk'
    by_cases hp : p.1 = k
    · simp only [alSet, hp, if_true, storeKeys, List.map_cons, List.mem_cons] at hk'
      rcases hk' with h1 | h1
      · exact Or.inr h1
      · exact Or.inl (by simp [storeKeys]; exact Or.inr (by simpa [storeKeys] using h1))
    · simp only [alSet, hp, if_false, storeKeys, List.map_cons, List.mem_cons] at hk'
      rcases hk' with h1 | h1
      · exact Or.inl (by simp [storeKeys, h1])
      · rcases ih k' (by simpa [storeKeys] using h1) with h2 | h2
        · exact Or.inl (by simp [storeKeys]; exact Or.inr (by simpa [storeKeys] using h2))
        · exact Or.inr h2

lemma goodRecId_some (d : Record) (i : AttrVal) (h : goodRecId d = some i) :
    dictGet d "id" = some i ∧ pyTruthy i = true := by
  unfold goodRecId at h
  cases hg : dictGet d "id" with
  | none => rw [hg] at h; simp at h
  | some j =>
    rw [hg] at h
    simp only [Option.some_bind] at h
    by_cases ht : pyTruthy j = true
    · rw [if_pos ht] at h
      obtain rfl : j = i := by injection h
      exact ⟨rfl, ht⟩
    · rw [if_neg ht] at h; cases h

lemma goodRecId_of_parts (d : Record) (i : AttrVal) (hg : dictGet d "id" = some i)
    (ht : pyTruthy i = true) : goodRecId d = some i := by
  unfold goodRecId
  rw [hg]
  simp only [Option.some_bind]
  rw [if_pos ht]

/-- Unfolding equation for the loop on a cons cell. -/
lemma loop_cons (d : Record) (rest : List Record) (s : Store) (b : Bool) :
    handle_device_loop s b (d :: rest) =
      match dictGet d "id" with
      | none => handle_device_loop s b rest
      | some did =>
        if pyTruthy did then
          if alGet s did ≠ some d then handle_device_loop (alSet s did d) true rest
          else handle_device_loop s b rest
        else handle_device_loop s b rest := rfl

/-- Loop step: the record carries no id key. -/
lemma loop_cons_noid (d : Record) (rest : List Record) (s : Store) (b : Bool)
    (hg : dictGet d "id" = none) :
    handle_device_loop s b (d :: rest) = handle_device_loop s b rest := by
  rw [loop_cons, hg]

/-- Loop step: the record's id is falsy. -/
lemma loop_cons_falsy (d : Record) (rest : List Record) (s : Store) (b : Bool)
    (i : AttrVal) (hg : dictGet d "id" = some i) (ht : pyTruthy i = false) :
    handle_device_loop s b (d :: rest) = handle_device_loop s b rest := by
  rw [loop_cons, hg]
  simp [ht]

/-- Loop step: the record equals the one stored under its id. -/
lemma loop_cons_same (d : Record) (rest : List Record) (s : Store) (b : Bool)
    (i : AttrVal) (hg : dictGet d "id" = some i) (ht : pyTruthy i = true)
    (hc : alGet s i = some d) :
    handle_device_loop s b (d :: rest) = handle_device_loop s b rest := by
  rw [loop_cons, hg]
  simp [ht, hc]

/-- Loop step: the record differs from (or is absent from) the store. -/
lemma loop_cons_diff (d : Record) (rest : List Record) (s : Store) (b : Bool)
    (i : AttrVal) (hg : dictGet d "id" = some i) (ht : pyTruthy i = true)
    (hc : alGet s i ≠ some d) :
    handle_device_loop s b (d :: rest) = handle_device_loop (alSet s i d) true rest := by
  rw [loop_cons, hg]
  simp [ht, hc]

/-- Unfolding equation for `lastWithId` on a cons cell. -/
lemma lastWithId_cons (d : Record) (rest : List Record) (i : AttrVal) :
    lastWithId (d :: rest) i =
      match lastWithId rest i with
      | some r => some r
      | none => if goodRecId d = some i then some d else none := rfl

/-- Once the changed flag is set, the rest of the loop keeps it set. -/
lemma loop_flag_mono (l : List Record) : ∀ s, (handle_device_loop s true l).2 = true := by
  induction l with
  | nil => intro s; rfl
  | cons d rest ih =>
    intro s
    cases hg : dictGet d "id" with
    | none => rw [loop_cons_noid d rest s true hg]; exact ih s
    | some i =>
      cases ht : pyTruthy i with
      | false => rw [loop_cons_falsy d rest s true i hg ht]; exact ih s
      | true =>
        by_cases hc : alGet s i = some d
        · rw [loop_cons_same d rest s true i hg ht hc]; exact ih s
        · rw [loop_cons_diff d rest s true i hg ht hc]; exact ih _

/-- A batch whose every record is already stored identically under its id
leaves the registry and the flag untouched. -/
lemma loop_unchanged (l : List Record) : ∀ s b,
    (∀ d ∈ l, ∀ i, goodRecId d = some i → alGet s i = some d) →
    handle_device_loop s b l = (s, b) := by
  induction l with
  | nil => intro s b _; rfl
  | cons d rest ih =>
    intro s b h
    have hrest : ∀ d' ∈ rest, ∀ i, goodRecId d' = some i → alGet s i = some d' :=
      fun d' hd' => h d' (List.mem_cons_of_mem _ hd')
    cases hg : dictGet d "id" with
    | none => rw [loop_cons_noid d rest s b hg]; exact ih s b hrest
    | some i =>
      cases ht : pyTruthy i with
      | false => rw [loop_cons_falsy d rest s b i hg ht]; exact ih s b hrest
      | true =>
        have hc : alGet s i = some d :=
          h d (List.mem_cons_self _ _) i (goodRecId_of_parts d i hg ht)
        rw [loop_cons_same d rest s b i hg ht hc]
        exact ih s b hrest

/-- The registry entry finally stored under a key is the last record the batch
stores at that key, and is untouched when the batch stores none. -/
lemma loop_get_last (l : List Record) : ∀ s b i,
    alGet (handle_device_loop s b l).1 i =
      match lastWithId l i with
      | some d => some d
      | none => alGet s i := by
  induction l with
  | nil => intro s b i; rfl
  | cons d rest ih =>
    intro s b i
    rw [lastWithId_cons]
    cases hg : dictGet d "id" with
    | none =>
      have hgood : goodRecId d ≠ some i := by simp [goodRecId, hg]
      rw [loop_cons_noid d rest s b hg, ih s b i]
      cases hlast : lastWithId rest i <;> simp [hgood]
    | some j =>
      cases ht : pyTruthy j with
      | false =>
        have hgood : goodRecId d ≠ some i := by
          unfold goodRecId
          rw [hg]
          simp [ht]
        rw [loop_cons_falsy d rest s b j hg ht, ih s b i]
        cases hlast : lastWithId rest i <;> simp [hgood]
      | true =>
        have hgoodj : goodRecId d = some j := goodRecId_of_parts d j hg ht
        by_cases hc : alGet s j = some d
        · rw [loop_cons_same d rest s b j hg ht hc, ih s b i]
          cases hlast : lastWithId rest i with
          | some r => simp
          | none =>
            by_cases hji : goodRecId d = some i
            · have : j = i := by rw [hgoodj] at hji; injection hji
              subst this
              simp [hji, hc]
            · simp [hji]
        · rw [loop_cons_diff d rest s b j hg ht hc, ih _ true i]
          cases hlast : lastWithId rest i with
          | some r => simp
          | none =>
            by_cases hji : j = i
            · subst hji
              simp [hgoodj, alGet_set_self]
            · have hgood : goodRecId d ≠ some i := by
                rw [hgoodj]; intro he; exact hji (by injection he)
              simp [hgood, alGet_set_ne s j i d hji]

/-- If some record of the batch differs from what is stored under its id, the
loop reports a change (given per-batch unique ids). -/
lemma loop_flag_changed (l : List Record) : ∀ s b d i, d ∈ l →
    goodRecId d = some i → alGet s i ≠ some d →
    (l.map (fun r => dictGet r "id")).Nodup →
    (handle_device_loop s b l).2 = true := by
  induction l with
  | nil => intro s b d i hd; simp at hd
  | cons d0 rest ih =>
    intro s b d i hd hgood hne hnd
    have hnd' : (rest.map (fun r => dictGet r "id")).Nodup := (List.nodup_cons.mp hnd).2
    obtain ⟨hgi, hti⟩ := goodRecId_some d i hgood
    rcases List.mem_cons.mp hd with rfl | hdr
    · rw [loop_cons_diff d rest s b i hgi hti hne]
      exact loop_flag_mono rest _
    · have hd0i : dictGet d0 "id" ≠ some i := by
        intro he
        have hmem : dictGet d "id" ∈ rest.map (fun r => dictGet r "id") :=
          List.mem_map.mpr ⟨d, hdr, rfl⟩
        rw [hgi, ← he] at hmem
        exact (List.nodup_cons.mp hnd).1 hmem
      cases hg0 : dictGet d0 "id" with
      | none =>
        rw [loop_cons_noid d0 rest s b hg0]
        exact ih s b d i hdr hgood hne hnd'
      | some j =>
        have hji : j ≠ i := fun he => hd0i (by rw [hg0, he])
        cases ht0 : pyTruthy j with
        | false =>
          rw [loop_cons_falsy d0 rest s b j hg0 ht0]
          exact ih s b d i hdr hgood hne hnd'
        | true =>
          by_cases hc0 : alGet s j = some d0
          · rw [loop_cons_same d0 rest s b j hg0 ht0 hc0]
            exact ih s b d i hdr hgood hne hnd'
          · rw [loop_cons_diff d0 rest s b j hg0 ht0 hc0]
            refine ih _ true d i hdr hgood ?_ hnd'
            rw [alGet_set_ne s j i d0 hji]
            exact hne

/-- Records with no truthy id are transparent to the loop. -/
lemma loop_filter (l : List Record) : ∀ s b,
    handle_device_loop s b l
      = handle_device_loop s b (l.filter (fun d => (goodRecId d).isSome)) := by
  induction l with
  | nil => intro s b; rfl
  | cons d rest ih =>
    intro s b
    cases hg : dictGet d "id" with
    | none =>
      have hgood : (goodRecId d).isSome = false := by simp [goodRecId, hg]
      rw [List.filter_cons_of_neg (by simp [hgood]), loop_cons_noid d rest s b hg]
      exact ih s b
    | some i =>
      cases ht : pyTruthy i with
      | false =>
        have hgood : (goodRecId d).isSome = false := by simp [goodRecId, hg, ht]
        rw [List.filter_cons_of_neg (by simp [hgood]), loop_cons_falsy d rest s b i hg ht]
        exact ih s b
      | true =>
        have hgood : (goodRecId d).isSome = true := by
          simp [goodRecId_of_parts d i hg ht]
        rw [List.filter_cons_of_pos (by simp [hgood])]
        by_cases hc : alGet s i = some d
        · rw [loop_cons_same d rest s b i hg ht hc,
            loop_cons_same d (rest.filter _) s b i hg ht hc]
          exact ih s b
        · rw [loop_cons_diff d rest s b i hg ht hc,
            loop_cons_diff d (rest.filter _) s b i hg ht hc]
          exact ih _ true

/-- Truthiness of every registry key is preserved by the loop. -/
lemma loop_keys (l : List Record) : ∀ s b,
    (∀ k ∈ storeKeys s, pyTruthy k = true) →
    ∀ k ∈ storeKeys (handle_device_loop s b l).1, pyTruthy k = true := by
  induction l with
  | nil => intro s b h; exact h
  | cons d rest ih =>
    intro s b h
    cases hg : dictGet d "id" with
    | none => rw [loop_cons_noid d rest s b hg]; exact ih s b h
    | some i =>
      cases ht : pyTruthy i with
      | false => rw [loop_cons_falsy d rest s b i hg ht]; exact ih s b h
      | true =>
        by_cases hc : alGet s i = some d
        · rw [loop_cons_same d rest s b i hg ht hc]; exact ih s b h
        · rw [loop_cons_diff d rest s b i hg ht hc]
          refine ih _ true ?_
          intro k hk
          rcases storeKeys_set s i d k hk with hin | rfl
          · exact h k hin
          · exact ht

/-- No record of the batch stores at the key: the key's last-stored record is
none. -/
lemma lastWithId_none (l : List Record) (i : AttrVal)
    (h : ∀ d ∈ l, goodRecId d ≠ some i) : lastWithId l i = none := by
  induction l with
  | nil => rfl
  | cons d rest ih =>
    rw [lastWithId_cons, ih (fun d' hd' => h d' (List.mem_cons_of_mem _ hd'))]
    simp [h d (List.mem_cons_self _ _)]

/-- With per-batch unique ids, the last record stored at a member's id is that
member itself. -/
lemma lastWithId_of_mem (l : List Record) (d : Record) (i : AttrVal)
    (hd : d ∈ l) (hi : goodRecId d = some i)
    (hnd : (l.map (fun r => dictGet r "id")).Nodup) : lastWithId l i = some d := by
  induction l with
  | nil => simp at hd
  | cons d0 rest ih =>
    have hnd' : (rest.map (fun r => dictGet r "id")).Nodup := (List.nodup_cons.mp hnd).2
    rcases List.mem_cons.mp hd with rfl | hdr
    · have hrest : lastWithId rest i = none := by
        refine lastWithId_none rest i ?_
        intro d' hd' he
        have h1 : dictGet d' "id" = some i := (goodRecId_some d' i he).1
        have h2 : dictGet d "id" = some i := (goodRecId_some d i hi).1
        have hmem : dictGet d' "id" ∈ rest.map (fun r => dictGet r "id") :=
          List.mem_map.mpr ⟨d', hd', rfl⟩
        rw [h1, ← h2] at hmem
        exact (List.nodup_cons.mp hnd).1 hmem
      rw [lastWithId_cons, hrest]
      simp [hi]
    · rw [lastWithId_cons, ih hdr hnd']

/-! ## Claim C4: ingest change detection and notification -/

/-- C4: for a batch of records with (truthy, per-batch unique) ids ingested by
`_handle_device_data`: when every record is structurally identical to the one
stored under its id, the registry is unchanged and the changed flag stays
false, so no change notification is produced; when at least one record differs
from (or is absent from) the store, the flag ends true — producing the single
post-loop notification (issued once per batch, when the coordinator is set) —
and every record of the batch, in particular each differing one, is stored
wholesale under its id. -/
theorem C4_ingest_notification (store : Store) (batch : List Record)
    (hids : ∀ d ∈ batch, (goodRecId d).isSome = true)
    (hnd : (batch.map (fun r => dictGet r "id")).Nodup) :
    ((∀ d ∈ batch, storedUnder store d = some d) →
      handle_device_data store batch = (store, false))
    ∧ ((∃ d ∈ batch, storedUnder store d ≠ some d) →
      (handle_device_data store batch).2 = true
      ∧ ∀ d ∈ batch, storedUnder (handle_device_data store batch).1 d = some d) := by
  constructor
  · intro h
    refine loop_unchanged batch store false ?_
    intro d hd i hi
    have := h d hd
    rwa [storedUnder, hi, Option.some_bind] at this
  · intro h
    obtain ⟨d, hd, hne⟩ := h
    obtain ⟨i, hi⟩ := Option.isSome_iff_exists.mp (hids d hd)
    have hne' : alGet store i ≠ some d := by
      rw [storedUnder, hi, Option.some_bind] at hne
      exact hne
    constructor
    · exact loop_flag_changed batch store false d i hd hi hne' hnd
    · intro d' hd'
      obtain ⟨i', hi'⟩ := Option.isSome_iff_exists.mp (hids d' hd')
      rw [storedUnder, hi', Option.some_bind]
      rw [handle_device_data, loop_get_last,
        lastWithId_of_mem batch d' i' hd' hi' hnd]

/-- Witness for C4: ingesting a changed record for a stored id sets the flag
(one notification) and replaces the stored record. -/
theorem C4_ingest_notification_witness :
    (handle_device_data [(AttrVal.s "A", [("id", AttrVal.s "A")])]
        [[("id", AttrVal.s "A"), ("temp", AttrVal.n 21)]]).2 = true
    ∧ ∀ d ∈ [[("id", AttrVal.s "A"), ("temp", AttrVal.n 21)]],
        storedUnder (handle_device_data [(AttrVal.s "A", [("id", AttrVal.s "A")])]
          [[("id", AttrVal.s "A"), ("temp", AttrVal.n 21)]]).1 d = some d :=
  (C4_ingest_notification [(AttrVal.s "A", [("id", AttrVal.s "A")])]
    [[("id", AttrVal.s "A"), ("temp", AttrVal.n 21)]]
    (by decide) (by decide)).2 (by decide)

/-! ## Claim C10: records without a truthy id are skipped -/

/-- C10: ingesting a batch is the same as ingesting the batch with every
record lacking a truthy id removed (such records are never stored and never
contribute to the change flag); all registry keys stay truthy device ids; and
every key maps to the last record received under that id (unchanged when the
batch carries none). -/
theorem C10_falsy_id_skip (store : Store) (batch : List Record) :
    handle_device_data store batch
      = handle_device_data store (batch.filter (fun d => (goodRecId d).isSome))
    ∧ ((∀ k ∈ storeKeys store, pyTruthy k = true) →
        ∀ k ∈ storeKeys (handle_device_data store batch).1, pyTruthy k = true)
    ∧ (∀ i, alGet (handle_device_data store batch).1 i =
        match lastWithId batch i with
        | some d => some d
        | none => alGet store i) := by
  refine ⟨loop_filter batch store false, loop_keys batch store false, ?_⟩
  intro i
  exact loop_get_last batch store false i

/-- Witness for C10: a batch holding an id-less record and an empty-string id
record ingests exactly like the empty batch, and key truthiness holds at the
result. -/
theorem C10_falsy_id_skip_witness :
    handle_device_data [] [[("x", AttrVal.n 1)], [("id", AttrVal.s "")]]
      = handle_device_data []
          ([[("x", AttrVal.n 1)], [("id", AttrVal.s "")]].filter
            (fun d => (goodRecId d).isSome))
    ∧ ∀ k ∈ storeKeys (handle_device_data []
        [[("x", AttrVal.n 1)], [("id", AttrVal.s "")]]).1, pyTruthy k = true :=
  ⟨(C10_falsy_id_skip [] [[("x", AttrVal.n 1)], [("id", AttrVal.s "")]]).1,
   (C10_falsy_id_skip [] [[("x", AttrVal.n 1)], [("id", AttrVal.s "")]]).2.1
     (by simp [storeKeys])⟩

/-! ## Coordinator lemmas (shared by C5 and C9) -/

lemma mem_discoveredIds (st : CoordState) (d : AttrVal)
    (h : d ∈ discoveredIds st) : d ∉ st.knownIds := by
  obtain ⟨p, hp, rfl⟩ := List.mem_map.mp h
  simpa using (List.mem_filter.mp hp).2

lemma sensorIds_sub (st : CoordState) : ∀ d ∈ sensorIds st, d ∈ discoveredIds st := by
  intro d hd
  obtain ⟨p, hp, rfl⟩ := List.mem_map.mp hd
  exact List.mem_map.mpr ⟨p, List.mem_of_mem_filter hp, rfl⟩

lemma numberIds_sub (st : CoordState) : ∀ d ∈ numberIds st, d ∈ discoveredIds st := by
  intro d hd
  obtain ⟨p, hp, rfl⟩ := List.mem_map.mp hd
  exact List.mem_map.mpr ⟨p, List.mem_of_mem_filter hp, rfl⟩

lemma selectIds_sub (st : CoordState) : ∀ d ∈ selectIds st, d ∈ discoveredIds st := by
  intro d hd
  obtain ⟨p, hp, rfl⟩ := List.mem_map.mp hd
  exact List.mem_map.mpr ⟨p, List.mem_of_mem_filter hp, rfl⟩

lemma mem_sinkChunk (c : Bool) (l : List AttrVal) (pl p : HAPlatform) (d : AttrVal)
    (h : (p, d) ∈ (if c then l.map (fun i => (pl, i)) else [])) :
    c = true ∧ p = pl ∧ d ∈ l := by
  cases c with
  | false => simp at h
  | true =>
    simp only [if_true] at h
    obtain ⟨i, hi, he⟩ := List.mem_map.mp h
    obtain ⟨h1, h2⟩ : pl = p ∧ i = d := by injection he with h1 h2; exact ⟨h1, h2⟩
    subst h1; subst h2
    exact ⟨rfl, rfl, hi⟩

/-- A pair is dispatched only when its platform's adder is registered, and only
for a device discovered by this very call. -/
lemma delivered_discovered (st : CoordState) (p : HAPlatform) (d : AttrVal)
    (h : (p, d) ∈ deliveredPairs st) :
    d ∈ discoveredIds st ∧ sinkOf st p = true := by
  unfold deliveredPairs at h
  rcases List.mem_append.mp h with h | h
  · rcases List.mem_append.mp h with h | h
    · rcases List.mem_append.mp h with h | h
      · obtain ⟨hc, rfl, hd⟩ := mem_sinkChunk _ _ _ _ _ h
        exact ⟨hd, (by simp only [Bool.and_eq_true] at hc; exact hc.2)⟩
      · obtain ⟨hc, rfl, hd⟩ := mem_sinkChunk _ _ _ _ _ h
        exact ⟨sensorIds_sub st d hd, (by simp only [Bool.and_eq_true] at hc; exact hc.2)⟩
    · obtain ⟨hc, rfl, hd⟩ := mem_sinkChunk _ _ _ _ _ h
      exact ⟨numberIds_sub st d hd, (by simp only [Bool.and_eq_true] at hc; exact hc.2)⟩
  · obtain ⟨hc, rfl, hd⟩ := mem_sinkChunk _ _ _ _ _ h
    exact ⟨selectIds_sub st d hd, (by simp only [Bool.and_eq_true] at hc; exact hc.2)⟩

lemma notify_discovered (st : CoordState) (d : AttrVal)
    (h : d ∈ (notify_data_received st).2.discovered) :
    d ∉ st.knownIds ∧ d ∈ (notify_data_received st).1.knownIds := by
  unfold notify_data_received at h ⊢
  by_cases ha : anySink st = true
  · rw [if_pos ha] at h ⊢
    refine ⟨mem_discoveredIds st d h, ?_⟩
    simp only [List.mem_append]
    exact Or.inr h
  · rw [if_neg ha] at h
    simp at h

lemma notify_known_mono (st : CoordState) (d : AttrVal) (h : d ∈ st.knownIds) :
    d ∈ (notify_data_received st).1.knownIds
    ∧ d ∉ (notify_data_received st).2.discovered := by
  unfold notify_data_received
  by_cases ha : anySink st = true
  · rw [if_pos ha]
    refine ⟨?_, ?_⟩
    · simp only [List.mem_append]
      exact Or.inl h
    · intro hc
      exact mem_discoveredIds st d hc h
  · rw [if_neg ha]
    exact ⟨h, by simp⟩

lemma set_adder_known_mono (st : CoordState) (p : HAPlatform) (d : AttrVal)
    (h : d ∈ st.knownIds) : d ∈ (set_entity_adder st p).knownIds := by
  unfold set_entity_adder
  cases p <;> simp [List.mem_append, h]

/-- The data field does not influence which adders are registered. -/
lemma sinkOf_data (st : CoordState) (data' : Store) (p : HAPlatform) :
    sinkOf { st with data := data' } p = sinkOf st p := by
  cases p <;> rfl

/-- Unfolding equation for an ingest step. -/
lemma coordStep_ingest (st : CoordState) (batch : List Record) :
    coordStep st (CoordEvent.ingest batch) =
      if (handle_device_data st.data batch).2 then
        ((notify_data_received { st with data := (handle_device_data st.data batch).1 }).1,
         some (notify_data_received { st with data := (handle_device_data st.data batch).1 }).2)
      else ({ st with data := (handle_device_data st.data batch).1 }, none) := rfl

lemma step_known_mono (st : CoordState) (e : CoordEvent) (d : AttrVal)
    (h : d ∈ st.knownIds) :
    d ∈ (coordStep st e).1.knownIds
    ∧ ∀ o, (coordStep st e).2 = some o → d ∉ o.discovered := by
  cases e with
  | ingest batch =>
    rw [coordStep_ingest]
    by_cases hc : (handle_device_data st.data batch).2 = true
    · rw [if_pos hc]
      have h2 : d ∈ ({ st with data := (handle_device_data st.data batch).1 } : CoordState).knownIds := h
      refine ⟨(notify_known_mono _ d h2).1, ?_⟩
      intro o ho
      obtain rfl : (notify_data_received { st with data := (handle_device_data st.data batch).1 }).2 = o := by
        injection ho
      exact (notify_known_mono _ d h2).2
    · rw [if_neg hc]
      exact ⟨h, by intro o ho; cases ho⟩
  | setAdder p =>
    exact ⟨set_adder_known_mono st p d h, by intro o ho; cases ho⟩

lemma step_discovered_known (st : CoordState) (e : CoordEvent) (st2 : CoordState)
    (o : NotifyOut) (d : AttrVal) (hstep : coordStep st e = (st2, some o))
    (hd : d ∈ o.discovered) : d ∈ st2.knownIds := by
  cases e with
  | ingest batch =>
    rw [coordStep_ingest] at hstep
    by_cases hc : (handle_device_data st.data batch).2 = true
    · rw [if_pos hc] at hstep
      injection hstep with h1 h2
      injection h2 with h2
      subst h2
      subst h1
      exact (notify_discovered _ d hd).2
    · rw [if_neg hc] at hstep
      injection hstep with h1 h2
      exact Option.noConfusion h2
  | setAdder p =>
    injection hstep with h1 h2
    exact Option.noConfusion h2

lemma step_delivered (st : CoordState) (e : CoordEvent) (st2 : CoordState)
    (o : NotifyOut) (p : HAPlatform) (d : AttrVal)
    (hstep : coordStep st e = (st2, some o)) (hd : (p, d) ∈ o.delivered) :
    d ∈ o.discovered ∧ sinkOf st p = true := by
  cases e with
  | ingest batch =>
    rw [coordStep_ingest] at hstep
    by_cases hc : (handle_device_data st.data batch).2 = true
    · rw [if_pos hc] at hstep
      injection hstep with h1 h2
      injection h2 with h2
      subst h2
      unfold notify_data_received at hd ⊢
      by_cases ha : anySink { st with data := (handle_device_data st.data batch).1 } = true
      · rw [if_pos ha] at hd ⊢
        have hdel := delivered_discovered _ p d hd
        refine ⟨hdel.1, ?_⟩
        rw [← sinkOf_data st (handle_device_data st.data batch).1 p]
        exact hdel.2
      · rw [if_neg ha] at hd
        simp at hd
    · rw [if_neg hc] at hstep
      injection hstep with h1 h2
      exact Option.noConfusion h2
  | setAdder p2 =>
    injection hstep with h1 h2
    exact Option.noConfusion h2

/-- Unfolding equation for a run on a cons cell. -/
lemma runCoord_cons (st : CoordState) (e : CoordEvent) (es : List CoordEvent) :
    runCoord st (e :: es) =
      ((runCoord (coordStep st e).1 es).1,
       (coordStep st e).2.toList ++ (runCoord (coordStep st e).1 es).2) := rfl

/-- Once an id is known it stays known, and no later notify call ever reports
it as newly discovered. -/
lemma run_known (d : AttrVal) : ∀ (es : List CoordEvent) (st : CoordState),
    d ∈ st.knownIds →
    d ∈ (runCoord st es).1.knownIds ∧ ∀ o ∈ (runCoord st es).2, d ∉ o.discovered := by
  intro es
  induction es with
  | nil =>
    intro st h
    exact ⟨h, by intro o ho; simp [runCoord] at ho⟩
  | cons e es ih =>
    intro st h
    rw [runCoord_cons]
    obtain ⟨h1, h2⟩ := step_known_mono st e d h
    obtain ⟨h3, h4⟩ := ih _ h1
    refine ⟨h3, ?_⟩
    intro o ho
    rcases List.mem_append.mp ho with ho | ho
    · cases hx : (coordStep st e).2 with
      | none => rw [hx] at ho; simp at ho
      | some o2 =>
        rw [hx] at ho
        simp only [Option.toList_some, List.mem_singleton] at ho
        subst ho
        exact h2 o hx
    · exact h4 o ho

/-- Every delivered pair of a run's outputs is for a device discovered by that
very output. -/
lemma run_delivered (p : HAPlatform) (d : AttrVal) : ∀ (es : List CoordEvent)
    (st : CoordState) (o : NotifyOut), o ∈ (runCoord st es).2 →
    (p, d) ∈ o.delivered → d ∈ o.discovered := by
  intro es
  induction es with
  | nil =>
    intro st o ho
    simp [runCoord] at ho
  | cons e es ih =>
    intro st o ho hdel
    rw [runCoord_cons] at ho
    rcases List.mem_append.mp ho with ho | ho
    · cases hx : (coordStep st e).2 with
      | none => rw [hx] at ho; simp at ho
      | some o2 =>
        rw [hx] at ho
        simp only [Option.toList_some, List.mem_singleton] at ho
        subst ho
        exact (step_delivered st e (coordStep st e).1 o p d (by rw [← hx]) hdel).1
    · exact ih _ o ho hdel

lemma discoveryCount_append (a b : List NotifyOut) (d : AttrVal) :
    discoveryCount (a ++ b) d = discoveryCount a d + discoveryCount b d := by
  simp [discoveryCount, List.filter_append]

lemma discoveryCount_zero (outs : List NotifyOut) (d : AttrVal)
    (h : ∀ o ∈ outs, d ∉ o.discovered) : discoveryCount outs d = 0 := by
  unfold discoveryCount
  rw [List.length_eq_zero]
  rw [List.filter_eq_nil_iff]
  intro o ho
  simp [h o ho]

/-! ## Claim C5: discovery exactly once -/

/-- Counterexample to C5: ingest device "A" before any platform adder is
registered (discovery pass skipped, id not marked known), register the switch
adder (which marks "A" known without any discovery event), then ingest a
changed record for "A" (notify runs, but "A" is already known). The device sits
in the registry and has appeared in two ingested batches of a running session,
yet was reported as newly discovered zero times, not exactly once. -/
theorem C5_counterexample :
    AttrVal.s "A" ∈ storeKeys (runCoord initCoord
      [CoordEvent.ingest [[("id", AttrVal.s "A")]],
       CoordEvent.setAdder HAPlatform.switch,
       CoordEvent.ingest [[("id", AttrVal.s "A"), ("temp", AttrVal.n 21)]]]).1.data
    ∧ discoveryCount (runCoord initCoord
      [CoordEvent.ingest [[("id", AttrVal.s "A")]],
       CoordEvent.setAdder HAPlatform.switch,
       CoordEvent.ingest [[("id", AttrVal.s "A"), ("temp", AttrVal.n 21)]]]).2
      (AttrVal.s "A") = 0 := by
  decide

/-- C5 as amended: a device id is reported as newly discovered at most once
per session — once an id enters the known-ids set it never generates another
discovery event (ids first present before any adder registers are marked known
with zero discovery events). -/
theorem C5_discovery_at_most_once (es : List CoordEvent) (st : CoordState)
    (d : AttrVal) : discoveryCount (runCoord st es).2 d ≤ 1 := by
  induction es generalizing st with
  | nil => simp [runCoord, discoveryCount]
  | cons e es ih =>
    rw [runCoord_cons, discoveryCount_append]
    cases hx : (coordStep st e).2 with
    | none =>
      have h0 : discoveryCount (Option.toList (none : Option NotifyOut)) d = 0 := rfl
      rw [h0]
      simpa using ih (coordStep st e).1
    | some o =>
      by_cases hd : d ∈ o.discovered
      · have hk : d ∈ (coordStep st e).1.knownIds :=
          step_discovered_known st e (coordStep st e).1 o d (by rw [← hx]) hd
        have h0 := discoveryCount_zero (runCoord (coordStep st e).1 es).2 d
          (run_known d es _ hk).2
        rw [h0]
        simp [discoveryCount, hd]
      · have h1 : discoveryCount (Option.toList (some o)) d = 0 := by
          simp [discoveryCount, hd]
        rw [h1]
        simpa using ih (coordStep st e).1

/-! ## Claim C9: capability sinks absent at first sighting -/

/-- C9: when an ingest step newly discovers device `d` while platform `P`'s
adder is not registered (but some adder is, so discovery runs), the pair
`(P, d)` is not delivered by that call — the capability's descriptors are
dropped, there being no queue — the id is added to known-ids anyway, and no
later step of any continuation ever delivers `(P, d)`, even after `P`'s adder
registers. -/
theorem C9_capability_drop (st : CoordState) (batch : List Record)
    (P : HAPlatform) (d : AttrVal) (st2 : CoordState) (out : NotifyOut)
    (hstep : coordStep st (CoordEvent.ingest batch) = (st2, some out))
    (hdisc : d ∈ out.discovered)
    (hsink : sinkOf st P = false) :
    (P, d) ∉ out.delivered
    ∧ d ∈ st2.knownIds
    ∧ ∀ es, ∀ o ∈ (runCoord st2 es).2, (P, d) ∉ o.delivered := by
  have hknown : d ∈ st2.knownIds :=
    step_discovered_known st (CoordEvent.ingest batch) st2 out d hstep hdisc
  refine ⟨?_, hknown, ?_⟩
  · intro hdel
    have := (step_delivered st (CoordEvent.ingest batch) st2 out P d hstep hdel).2
    rw [hsink] at this
    cases this
  · intro es o ho hdel
    have hdisco : d ∈ o.discovered := run_delivered P d es st2 o ho hdel
    exact (run_known d es st2 hknown).2 o ho hdisco

/-- Witness for C9: switch adder registered, sensor adder not; device "A"
with a `temp` field is first sighted — its sensor descriptor is dropped, "A"
becomes known, and the sensor adder never receives "A" even after registering
and re-ingesting a changed record. -/
theorem C9_capability_drop_witness :
    ((HAPlatform.sensor, AttrVal.s "A") ∉
      ({ discovered := [AttrVal.s "A"],
         delivered := [(HAPlatform.switch, AttrVal.s "A")] } : NotifyOut).delivered)
    ∧ AttrVal.s "A" ∈
      ({ data := [(AttrVal.s "A", [("id", AttrVal.s "A"), ("temp", AttrVal.n 21)])],
         knownIds := [AttrVal.s "A"], sinkSwitch := true, sinkSensor := false,
         sinkNumber := false, sinkSelect := false } : CoordState).knownIds
    ∧ ∀ o ∈ (runCoord
        { data := [(AttrVal.s "A", [("id", AttrVal.s "A"), ("temp", AttrVal.n 21)])],
          knownIds := [AttrVal.s "A"], sinkSwitch := true, sinkSensor := false,
          sinkNumber := false, sinkSelect := false }
        [CoordEvent.setAdder HAPlatform.sensor,
         CoordEvent.ingest [[("id", AttrVal.s "A"), ("temp", AttrVal.n 22)]]]).2,
      (HAPlatform.sensor, AttrVal.s "A") ∉ o.delivered := by
  have h := C9_capability_drop
    { data := [], knownIds := [], sinkSwitch := true, sinkSensor := false,
      sinkNumber := false, sinkSelect := false }
    [[("id", AttrVal.s "A"), ("temp", AttrVal.n 21)]]
    HAPlatform.sensor (AttrVal.s "A")
    { data := [(AttrVal.s "A", [("id", AttrVal.s "A"), ("temp", AttrVal.n 21)])],
      knownIds := [AttrVal.s "A"], sinkSwitch := true, sinkSensor := false,
      sinkNumber := false, sinkSelect := false }
    { discovered := [AttrVal.s "A"],
      delivered := [(HAPlatform.switch, AttrVal.s "A")] }
    (by decide) (by decide) (by decide)
  exact ⟨h.1, h.2.1, fun o ho => h.2.2
    [CoordEvent.setAdder HAPlatform.sensor,
     CoordEvent.ingest [[("id", AttrVal.s "A"), ("temp", AttrVal.n 22)]]] o ho⟩

/-- Witness for C1's amended theorem at the connected state reached by one
successful connect. -/
theorem C1_connect_guard_witness :
    (connect (runClient [ClientEvent.connectAttempt true]) true).sock =
      some (runClient [ClientEvent.connectAttempt true]).nextId
    ∧ (connect (runClient [ClientEvent.connectAttempt true]) true).openSockets =
      (runClient [ClientEvent.connectAttempt true]).openSockets
        ++ [(runClient [ClientEvent.connectAttempt true]).nextId] :=
  (C1_connect_guard (runClient [ClientEvent.connectAttempt true])).2 (by decide)

/-! ## Framing lemmas (shared by C3 and C8) -/

lemma ipo_refl (l : List Nat) : l.isPrefixOf l = true := by
  induction l with
  | nil => rfl
  | cons x t ih => simp [List.isPrefixOf, ih]

lemma ipo_append (l : List Nat) : ∀ b c, l.isPrefixOf b = true →
    l.isPrefixOf (b ++ c) = true := by
  induction l with
  | nil => intro b c _; simp [List.isPrefixOf]
  | cons x xs ih =>
    intro b c h
    cases b with
    | nil => simp [List.isPrefixOf] at h
    | cons y ys =>
      simp only [List.isPrefixOf, Bool.and_eq_true] at h
      simp only [List.cons_append, List.isPrefixOf, Bool.and_eq_true]
      exact ⟨h.1, ih ys c h.2⟩

lemma ipo_length (l : List Nat) : ∀ b, l.isPrefixOf b = true → l.length ≤ b.length := by
  induction l with
  | nil => intro b _; simp
  | cons x xs ih =>
    intro b h
    cases b with
    | nil => simp [List.isPrefixOf] at h
    | cons y ys =>
      simp only [List.isPrefixOf, Bool.and_eq_true] at h
      simpa [List.length_cons] using ih ys h.2

lemma ipo_of_append (l : List Nat) : ∀ b c, l.isPrefixOf (b ++ c) = true →
    l.length ≤ b.length → l.isPrefixOf b = true := by
  induction l with
  | nil => intro b c _ _; simp [List.isPrefixOf]
  | cons x xs ih =>
    intro b c h hlen
    cases b with
    | nil => simp at hlen
    | cons y ys =>
      simp only [List.cons_append, List.isPrefixOf, Bool.and_eq_true] at h
      simp only [List.isPrefixOf, Bool.and_eq_true]
      exact ⟨h.1, ih ys c h.2 (by simpa [List.length_cons] using hlen)⟩

/-- Unfolding equation for `findDelim` on a cons cell. -/
lemma findDelim_cons (x : Nat) (t : List Nat) :
    findDelim (x :: t) =
      if MESSAGE_DELIMITER.isPrefixOf (x :: t) then some 0
      else (findDelim t).map (· + 1) := rfl

/-- A found delimiter occurrence lies wholly inside the buffer. -/
lemma findDelim_bound (b : List Nat) : ∀ i, findDelim b = some i → i + 4 ≤ b.length := by
  induction b with
  | nil => intro i h; cases h
  | cons x t ih =>
    intro i h
    rw [findDelim_cons] at h
    by_cases hp : MESSAGE_DELIMITER.isPrefixOf (x :: t) = true
    · rw [if_pos hp] at h
      injection h with h
      subst h
      simpa [MESSAGE_DELIMITER] using ipo_length MESSAGE_DELIMITER (x :: t) hp
    · rw [if_neg hp] at h
      cases hfd : findDelim t with
      | none => rw [hfd] at h; cases h
      | some j =>
        rw [hfd] at h
        simp only [Option.map_some'] at h
        injection h with h
        have := ih j hfd
        simp only [List.length_cons]
        omega

/-- The first delimiter occurrence inside a buffer is still the first one after
appending more bytes (a later occurrence cannot move before it). -/
lemma findDelim_append_some (c : List Nat) : ∀ (b : List Nat) i, findDelim b = some i →
    findDelim (b ++ c) = some i := by
  intro b
  induction b with
  | nil => intro i h; cases h
  | cons x t ih =>
    intro i h
    rw [findDelim_cons] at h
    rw [List.cons_append, findDelim_cons]
    by_cases hp : MESSAGE_DELIMITER.isPrefixOf (x :: t) = true
    · rw [if_pos hp] at h
      rw [if_pos (by
        have := ipo_append MESSAGE_DELIMITER (x :: t) c hp
        simpa [List.cons_append] using this)]
      exact h
    · rw [if_neg hp] at h
      cases hfd : findDelim t with
      | none => rw [hfd] at h; cases h
      | some j =>
        rw [hfd] at h
        have hb : MESSAGE_DELIMITER.length ≤ (x :: t).length := by
          have hd4 : MESSAGE_DELIMITER.length = 4 := rfl
          rw [hd4]
          have := findDelim_bound t j hfd
          simp only [List.length_cons]
          omega
        have hp2 : ¬ MESSAGE_DELIMITER.isPrefixOf (x :: (t ++ c)) = true := by
          intro hcon
          exact hp (ipo_of_append MESSAGE_DELIMITER (x :: t) c
            (by simpa [List.cons_append] using hcon) hb)
        rw [if_neg hp2, ih j hfd]
        exact h

/-- Unfolding equation for the fuelled extractor at positive fuel. -/
lemma extractFramesAux_succ (fuel : Nat) (b : List Nat) :
    extractFramesAux (fuel + 1) b =
      match findDelim b with
      | none => ([], b)
      | some i =>
        (b.take i :: (extractFramesAux fuel (b.drop (i + 4))).1,
         (extractFramesAux fuel (b.drop (i + 4))).2) := rfl

/-- The fuel does not matter once it covers the buffer length. -/
lemma extractFramesAux_congr : ∀ (f1 f2 : Nat) (b : List Nat),
    b.length ≤ f1 → b.length ≤ f2 → extractFramesAux f1 b = extractFramesAux f2 b := by
  intro f1
  induction f1 with
  | zero =>
    intro f2 b hb _
    obtain rfl : b = [] := List.length_eq_zero.mp (Nat.le_zero.mp hb)
    cases f2 with
    | zero => rfl
    | succ m => rw [extractFramesAux_succ]; rfl
  | succ n ih =>
    intro f2 b hb1 hb2
    cases f2 with
    | zero =>
      obtain rfl : b = [] := List.length_eq_zero.mp (Nat.le_zero.mp hb2)
      rw [extractFramesAux_succ]
      rfl
    | succ m =>
      rw [extractFramesAux_succ, extractFramesAux_succ]
      cases hfd : findDelim b with
      | none => rfl
      | some i =>
        have hbound := findDelim_bound b i hfd
        have hlen : (b.drop (i + 4)).length ≤ n := by
          rw [List.length_drop]
          omega
        have hlen2 : (b.drop (i + 4)).length ≤ m := by
          rw [List.length_drop]
          omega
        dsimp only
        rw [ih m (b.drop (i + 4)) hlen hlen2]

/-- Extraction step when the buffer holds no delimiter. -/
lemma extractFrames_none (b : List Nat) (h : findDelim b = none) :
    extractFrames b = ([], b) := by
  unfold extractFrames
  cases b with
  | nil => rfl
  | cons x t =>
    rw [show (x :: t).length = t.length + 1 from rfl, extractFramesAux_succ, h]

/-- Extraction step when the buffer holds a delimiter at position `i`. -/
lemma extractFrames_some (b : List Nat) (i : Nat) (h : findDelim b = some i) :
    extractFrames b =
      (b.take i :: (extractFrames (b.drop (i + 4))).1,
       (extractFrames (b.drop (i + 4))).2) := by
  unfold extractFrames
  cases b with
  | nil => cases h
  | cons x t =>
    rw [show (x :: t).length = t.length + 1 from rfl, extractFramesAux_succ, h]
    have hbound := findDelim_bound (x :: t) i h
    have hc := extractFramesAux_congr t.length ((x :: t).drop (i + 4)).length
      ((x :: t).drop (i + 4))
      (by rw [List.length_drop]; simp only [List.length_cons] at hbound ⊢; omega)
      le_rfl
    dsimp only
    rw [hc]

/-- The leftover buffer after extraction never holds a delimiter. -/
lemma findDelim_rest : ∀ n (b : List Nat), b.length ≤ n →
    findDelim (extractFrames b).2 = none := by
  intro n
  induction n with
  | zero =>
    intro b hb
    obtain rfl : b = [] := List.length_eq_zero.mp (Nat.le_zero.mp hb)
    rfl
  | succ n ih =>
    intro b hb
    cases hfd : findDelim b with
    | none => rw [extractFrames_none b hfd]; exact hfd
    | some i =>
      rw [extractFrames_some b i hfd]
      have hbound := findDelim_bound b i hfd
      exact ih _ (by rw [List.length_drop]; omega)

/-- Greedy frame extraction composes over appending: extracting from `b ++ c`
first yields exactly the frames of `b`, then the frames of `b`'s leftover
prepended to `c`. -/
lemma extract_append : ∀ n (b : List Nat), b.length ≤ n → ∀ c,
    extractFrames (b ++ c) =
      ((extractFrames b).1 ++ (extractFrames ((extractFrames b).2 ++ c)).1,
       (extractFrames ((extractFrames b).2 ++ c)).2) := by
  intro n
  induction n with
  | zero =>
    intro b hb c
    obtain rfl : b = [] := List.length_eq_zero.mp (Nat.le_zero.mp hb)
    rw [extractFrames_none [] rfl]
    simp
  | succ n ih =>
    intro b hb c
    cases hfd : findDelim b with
    | none =>
      rw [extractFrames_none b hfd]
      simp
    | some i =>
      have hbound := findDelim_bound b i hfd
      have hfd2 : findDelim (b ++ c) = some i := findDelim_append_some c b i hfd
      rw [extractFrames_some b i hfd, extractFrames_some (b ++ c) i hfd2]
      have htake : (b ++ c).take i = b.take i :=
        List.take_append_of_le_length (by omega)
      have hdrop : (b ++ c).drop (i + 4) = b.drop (i + 4) ++ c :=
        List.drop_append_of_le_length (by omega)
      rw [htake, hdrop]
      have hrec := ih (b.drop (i + 4)) (by rw [List.length_drop]; omega) c
      rw [hrec]
      simp

/-- Folding reads through the framer from any delimiter-free holdover buffer is
extraction of the concatenation. -/
lemma feed_fold : ∀ (chunks : List (List Nat)) (fs0 : List (List Nat))
    (r0 : List Nat), findDelim r0 = none →
    chunks.foldl feedChunk (fs0, r0) =
      (fs0 ++ (extractFrames (r0 ++ chunks.flatten)).1,
       (extractFrames (r0 ++ chunks.flatten)).2) := by
  intro chunks
  induction chunks with
  | nil =>
    intro fs0 r0 h0
    simp only [List.foldl_nil, List.flatten_nil, List.append_nil]
    rw [extractFrames_none r0 h0]
    simp
  | cons c cs ih =>
    intro fs0 r0 h0
    simp only [List.foldl_cons]
    rw [show feedChunk (fs0, r0) c
      = (fs0 ++ (extractFrames (r0 ++ c)).1, (extractFrames (r0 ++ c)).2) from rfl]
    rw [ih _ _ (findDelim_rest (r0 ++ c).length (r0 ++ c) le_rfl)]
    have hx := extract_append (r0 ++ c).length (r0 ++ c) le_rfl cs.flatten
    simp only [List.flatten_cons, ← List.append_assoc]
    rw [hx]
    simp [List.append_assoc]

/-! ## Claim C3: chunk-boundary invariance of framing -/

/-- C3: for every byte stream and every way of splitting it into chunks,
feeding the chunks one at a time through the framer (append to the buffer,
extract delimiter-terminated frames) yields exactly the same frames — and the
same leftover buffer — as feeding the whole stream as a single chunk. -/
theorem C3_chunk_boundary_invariance (chunks : List (List Nat)) :
    feedChunks chunks = extractFrames chunks.flatten := by
  unfold feedChunks
  rw [feed_fold chunks [] [] rfl]
  simp

/-! ## Claim C8: decode errors are contained -/

lemma delim_not_prefix_short (bad t : List Nat) (hne : bad ≠ [])
    (hlen : bad.length < 4) :
    ¬ MESSAGE_DELIMITER.isPrefixOf (bad ++ MESSAGE_DELIMITER ++ t) = true := by
  cases bad with
  | nil => cases hne rfl
  | cons a t1 =>
    cases t1 with
    | nil => simp [MESSAGE_DELIMITER, List.isPrefixOf]
    | cons b t2 =>
      cases t2 with
      | nil => simp [MESSAGE_DELIMITER, List.isPrefixOf]
      | cons c t3 =>
        cases t3 with
        | nil => simp [MESSAGE_DELIMITER, List.isPrefixOf]
        | cons d t4 =>
          exfalso
          simp only [List.length_cons] at hlen
          omega

lemma findDelim_none_not_prefix (b : List Nat) (h : findDelim b = none) :
    ¬ MESSAGE_DELIMITER.isPrefixOf b = true := by
  cases b with
  | nil => simp [MESSAGE_DELIMITER, List.isPrefixOf]
  | cons x t =>
    intro hcon
    rw [findDelim_cons, if_pos hcon] at h
    cases h

/-- No delimiter occurrence can start strictly inside a delimiter-free frame
and spill into the appended delimiter: `$$##` has no nontrivial border. -/
lemma no_span (bad t : List Nat) (h : findDelim bad = none) (hne : bad ≠ []) :
    ¬ MESSAGE_DELIMITER.isPrefixOf (bad ++ MESSAGE_DELIMITER ++ t) = true := by
  by_cases hlen : bad.length < 4
  · exact delim_not_prefix_short bad t hne hlen
  · intro hcon
    have hcon' : MESSAGE_DELIMITER.isPrefixOf (bad ++ (MESSAGE_DELIMITER ++ t)) = true := by
      rw [← List.append_assoc]
      exact hcon
    have hpre := ipo_of_append MESSAGE_DELIMITER bad (MESSAGE_DELIMITER ++ t) hcon'
      (by simp only [MESSAGE_DELIMITER, List.length_cons, List.length_nil]; omega)
    exact findDelim_none_not_prefix bad h hpre

/-- A delimiter-free frame followed by the delimiter frames exactly at the
frame's length. -/
lemma findDelim_frame : ∀ (bad t : List Nat), findDelim bad = none →
    findDelim (bad ++ MESSAGE_DELIMITER ++ t) = some bad.length := by
  intro bad
  induction bad with
  | nil =>
    intro t h
    show findDelim (36 :: ([36, 35, 35] ++ t)) = some 0
    rw [findDelim_cons]
    rw [if_pos (by
      have := ipo_append MESSAGE_DELIMITER MESSAGE_DELIMITER t (ipo_refl _)
      simp only [MESSAGE_DELIMITER] at this
      exact this)]
  | cons x bt ih =>
    intro t h
    have hp : ¬ MESSAGE_DELIMITER.isPrefixOf (x :: bt) = true := by
      intro hcon
      rw [findDelim_cons, if_pos hcon] at h
      cases h
    have hbt : findDelim bt = none := by
      cases hfd : findDelim bt with
      | none => rfl
      | some j =>
        rw [findDelim_cons, if_neg hp, hfd] at h
        cases h
    have hns := no_span (x :: bt) t h (by simp)
    simp only [List.cons_append] at hns ⊢
    rw [findDelim_cons, if_neg (by simpa [List.cons_append] using hns)]
    have := ih t hbt
    rw [this]
    simp [List.length_cons]

/-- A buffer holding exactly two delimiter-terminated frames extracts to those
two frames with an empty leftover. -/
lemma extract_two_frames (bad good : List Nat) (hb : findDelim bad = none)
    (hg : findDelim good = none) :
    extractFrames (bad ++ MESSAGE_DELIMITER ++ good ++ MESSAGE_DELIMITER)
      = ([bad, good], []) := by
  have hassoc : bad ++ MESSAGE_DELIMITER ++ good ++ MESSAGE_DELIMITER
      = bad ++ MESSAGE_DELIMITER ++ (good ++ MESSAGE_DELIMITER) := by
    simp [List.append_assoc]
  rw [hassoc]
  have h1 : findDelim (bad ++ MESSAGE_DELIMITER ++ (good ++ MESSAGE_DELIMITER))
      = some bad.length := findDelim_frame bad (good ++ MESSAGE_DELIMITER) hb
  rw [extractFrames_some _ bad.length h1]
  have htake : (bad ++ MESSAGE_DELIMITER ++ (good ++ MESSAGE_DELIMITER)).take bad.length
      = bad := by
    rw [List.append_assoc]
    exact List.take_left bad (MESSAGE_DELIMITER ++ (good ++ MESSAGE_DELIMITER))
  have hdrop : (bad ++ MESSAGE_DELIMITER ++ (good ++ MESSAGE_DELIMITER)).drop (bad.length + 4)
      = good ++ MESSAGE_DELIMITER := by
    have hlen : (bad ++ MESSAGE_DELIMITER).length = bad.length + 4 := by
      simp [MESSAGE_DELIMITER]
    have := List.drop_left (bad ++ MESSAGE_DELIMITER) (good ++ MESSAGE_DELIMITER)
    rwa [hlen] at this
  rw [htake, hdrop]
  have h2 : findDelim (good ++ MESSAGE_DELIMITER) = some good.length := by
    have := findDelim_frame good [] hg
    simpa using this
  rw [extractFrames_some _ good.length h2]
  have htake2 : (good ++ MESSAGE_DELIMITER).take good.length = good := by
    exact List.take_left good MESSAGE_DELIMITER
  have hdrop2 : (good ++ MESSAGE_DELIMITER).drop (good.length + 4) = [] := by
    have hlen : (good ++ MESSAGE_DELIMITER).length = good.length + 4 := by
      simp [MESSAGE_DELIMITER]
    rw [← hlen]
    exact List.drop_length _
  rw [htake2, hdrop2]
  rfl

/-- C8: with the buffer previously empty, receiving a frame whose payload does
not decode followed by a valid device frame leaves exactly this state: the
decode-error count grows by one (the error is logged, the frame discarded),
the registry reflects only the valid frame (untouched by the bad one), the
buffer is fully consumed, and every connection field — socket, timers, listen
task, running flag — is unchanged: the connection is not torn down. -/
theorem C8_decode_error_recovery (loads : List Nat → Option (Bool × List Record))
    (st : ClientState) (bad good : List Nat) (ds : List Record)
    (hbuf : st.buffer = [])
    (hb : findDelim bad = none) (hg : findDelim good = none)
    (hbad : loads bad = none) (hgood : loads good = some (true, ds)) :
    listen_step loads st (bad ++ MESSAGE_DELIMITER ++ good ++ MESSAGE_DELIMITER)
      = { st with buffer := [],
                  data := (handle_device_data st.data ds).1,
                  decodeErrors := st.decodeErrors + 1 } := by
  unfold listen_step process_buffer
  rw [hbuf]
  simp only [List.nil_append]
  rw [extract_two_frames bad good hb hg]
  simp [processFrame, hbad, hgood]

/-! ## Timer-discipline lemmas (claim C2) -/

lemma mem_cancelTimer (ts : List (Nat × TimerKind)) (hh : Nat) (p : Nat × TimerKind) :
    p ∈ cancelTimer ts hh ↔ p ∈ ts ∧ p.1 ≠ hh := by
  simp [cancelTimer, List.mem_filter]

lemma nodup_all_eq_le_one {α : Type _} (l : List α) (a : α) (hnd : l.Nodup)
    (h : ∀ x ∈ l, x = a) : l.length ≤ 1 := by
  cases l with
  | nil => simp
  | cons x t =>
    cases t with
    | nil => simp
    | cons y u =>
      exfalso
      have hx := h x (by simp)
      have hy := h y (by simp)
      have hne := (List.nodup_cons.mp hnd).1
      rw [hx, ← hy] at hne
      exact hne (by simp)

lemma countReconnect_zero_iff (st : ClientState) :
    countReconnect st = 0 ↔ ∀ p ∈ st.liveTimers, p.2 ≠ TimerKind.reconnect := by
  simp [countReconnect, List.length_eq_zero, List.filter_eq_nil_iff]

lemma countHeartbeat_zero_iff (st : ClientState) :
    countHeartbeat st = 0 ↔ ∀ p ∈ st.liveTimers, p.2 ≠ TimerKind.heartbeat := by
  simp [countHeartbeat, List.length_eq_zero, List.filter_eq_nil_iff]

/-- Under the invariant, each timer kind has at most one live instance. -/
lemma counts_le_one (st : ClientState) (h : timerInv st) :
    countReconnect st ≤ 1 ∧ countHeartbeat st ≤ 1 := by
  obtain ⟨hnd, _, _, _, htrack⟩ := h
  constructor
  · cases hr : st.reconnectTask with
    | none =>
      have : countReconnect st = 0 := by
        rw [countReconnect_zero_iff]
        intro p hp hk
        have := (htrack p hp).1 hk
        rw [hr] at this
        cases this
      omega
    | some hh =>
      refine nodup_all_eq_le_one _ (hh, TimerKind.reconnect) (hnd.filter _) ?_
      intro p hp
      obtain ⟨hpm, hpk⟩ := List.mem_filter.mp hp
      have hpk' : p.2 = TimerKind.reconnect := by simpa using hpk
      have := (htrack p hpm).1 hpk'
      rw [hr] at this
      injection this with this
      exact Prod.ext (by rw [← this]) hpk'
  · cases hr : st.heartbeatTask with
    | none =>
      have : countHeartbeat st = 0 := by
        rw [countHeartbeat_zero_iff]
        intro p hp hk
        have := (htrack p hp).2 hk
        rw [hr] at this
        cases this
      omega
    | some hh =>
      refine nodup_all_eq_le_one _ (hh, TimerKind.heartbeat) (hnd.filter _) ?_
      intro p hp
      obtain ⟨hpm, hpk⟩ := List.mem_filter.mp hp
      have hpk' : p.2 = TimerKind.heartbeat := by simpa using hpk
      have := (htrack p hpm).2 hpk'
      rw [hr] at this
      injection this with this
      exact Prod.ext (by rw [← this]) hpk'

/-- The invariant only concerns the timer fields, monotonically in the
fresh-id counter. -/
lemma timerInv_irrelevant (st st2 : ClientState)
    (hl : st2.liveTimers = st.liveTimers) (hr : st2.reconnectTask = st.reconnectTask)
    (hh : st2.heartbeatTask = st.heartbeatTask) (hn : st.nextId ≤ st2.nextId)
    (h : timerInv st) : timerInv st2 := by
  obtain ⟨h1, h2, h3, h4, h5⟩ := h
  refine ⟨by rw [hl]; exact h1, ?_, ?_, ?_, ?_⟩
  · intro p hp
    have := h2 p (by rwa [hl] at hp)
    omega
  · intro k hk
    have := h3 k (by rwa [hr] at hk)
    omega
  · intro k hk
    have := h4 k (by rwa [hh] at hk)
    omega
  · intro p hp
    rw [hr, hh]
    exact h5 p (by rwa [hl] at hp)

lemma count_eq_of_timers_eq (s1 s2 : ClientState) (h : s1.liveTimers = s2.liveTimers) :
    countReconnect s1 = countReconnect s2 ∧ countHeartbeat s1 = countHeartbeat s2 := by
  simp [countReconnect, countHeartbeat, h]

lemma clearReconnect_spec (st : ClientState) (h : timerInv st) :
    timerInv (clearReconnectTimer st)
    ∧ countReconnect (clearReconnectTimer st) = 0
    ∧ countHeartbeat (clearReconnectTimer st) ≤ countHeartbeat st
    ∧ (clearReconnectTimer st).nextId = st.nextId
    ∧ (clearReconnectTimer st).heartbeatTask = st.heartbeatTask
    ∧ (clearReconnectTimer st).running = st.running
    ∧ (clearReconnectTimer st).sock = st.sock
    ∧ (clearReconnectTimer st).listenTask = st.listenTask := by
  obtain ⟨hnd, hbnd, hrb, hhb, htrack⟩ := h
  cases hr : st.reconnectTask with
  | none =>
    have hzero : countReconnect st = 0 := by
      rw [countReconnect_zero_iff]
      intro p hp hk
      have := (htrack p hp).1 hk
      rw [hr] at this
      cases this
    unfold clearReconnectTimer
    rw [hr]
    exact ⟨⟨hnd, hbnd, hrb, hhb, htrack⟩, hzero, le_rfl, rfl, rfl, rfl, rfl, rfl⟩
  | some hh =>
    unfold clearReconnectTimer
    rw [hr]
    refine ⟨⟨hnd.filter _, ?_, ?_, ?_, ?_⟩, ?_, ?_, rfl, rfl, rfl, rfl, rfl⟩
    · intro p hp
      exact hbnd p ((mem_cancelTimer _ _ _).mp hp).1
    · intro k hk
      cases hk
    · exact hhb
    · intro p hp
      obtain ⟨hpm, hpne⟩ := (mem_cancelTimer _ _ _).mp hp
      constructor
      · intro hk
        have := (htrack p hpm).1 hk
        rw [hr] at this
        injection this with this
        exact absurd this.symm hpne
      · exact (htrack p hpm).2
    · rw [countReconnect_zero_iff]
      intro p hp hk
      obtain ⟨hpm, hpne⟩ := (mem_cancelTimer _ _ _).mp hp
      have := (htrack p hpm).1 hk
      rw [hr] at this
      injection this with this
      exact hpne this.symm
    · unfold countHeartbeat
      have hs : List.Sublist
          ((cancelTimer st.liveTimers hh).filter (fun p => p.2 = TimerKind.heartbeat))
          (st.liveTimers.filter (fun p => p.2 = TimerKind.heartbeat)) :=
        List.Sublist.filter _ (List.filter_sublist _)
      exact hs.length_le

lemma clearHeartbeat_spec (st : ClientState) (h : timerInv st) :
    timerInv (clearHeartbeatTimer st)
    ∧ countHeartbeat (clearHeartbeatTimer st) = 0
    ∧ countReconnect (clearHeartbeatTimer st) ≤ countReconnect st
    ∧ (clearHeartbeatTimer st).nextId = st.nextId
    ∧ (clearHeartbeatTimer st).reconnectTask = st.reconnectTask
    ∧ (clearHeartbeatTimer st).running = st.running
    ∧ (clearHeartbeatTimer st).sock = st.sock
    ∧ (clearHeartbeatTimer st).listenTask = st.listenTask := by
  obtain ⟨hnd, hbnd, hrb, hhb, htrack⟩ := h
  cases hr : st.heartbeatTask with
  | none =>
    have hzero : countHeartbeat st = 0 := by
      rw [countHeartbeat_zero_iff]
      intro p hp hk
      have := (htrack p hp).2 hk
      rw [hr] at this
      cases this
    unfold clearHeartbeatTimer
    rw [hr]
    exact ⟨⟨hnd, hbnd, hrb, hhb, htrack⟩, hzero, le_rfl, rfl, rfl, rfl, rfl, rfl⟩
  | some hh =>
    unfold clearHeartbeatTimer
    rw [hr]
    refine ⟨⟨hnd.filter _, ?_, ?_, ?_, ?_⟩, ?_, ?_, rfl, rfl, rfl, rfl, rfl⟩
    · intro p hp
      exact hbnd p ((mem_cancelTimer _ _ _).mp hp).1
    · exact hrb
    · intro k hk
      cases hk
    · intro p hp
      obtain ⟨hpm, hpne⟩ := (mem_cancelTimer _ _ _).mp hp
      constructor
      · exact (htrack p hpm).1
      · intro hk
        have := (htrack p hpm).2 hk
        rw [hr] at this
        injection this with this
        exact absurd this.symm hpne
    · rw [countHeartbeat_zero_iff]
      intro p hp hk
      obtain ⟨hpm, hpne⟩ := (mem_cancelTimer _ _ _).mp hp
      have := (htrack p hpm).2 hk
      rw [hr] at this
      injection this with this
      exact hpne this.symm
    · unfold countReconnect
      have hs : List.Sublist
          ((cancelTimer st.liveTimers hh).filter (fun p => p.2 = TimerKind.reconnect))
          (st.liveTimers.filter (fun p => p.2 = TimerKind.reconnect)) :=
        List.Sublist.filter _ (List.filter_sublist _)
      exact hs.length_le

lemma armReconnect_spec (st : ClientState) (h : timerInv st)
    (h0 : countReconnect st = 0) :
    timerInv (armReconnect st)
    ∧ countReconnect (armReconnect st) = 1
    ∧ countHeartbeat (armReconnect st) = countHeartbeat st
    ∧ (armReconnect st).running = st.running
    ∧ (armReconnect st).heartbeatTask = st.heartbeatTask
    ∧ (armReconnect st).liveTimers
        = st.liveTimers ++ [(st.nextId, TimerKind.reconnect)]
    ∧ (armReconnect st).reconnectTask = some st.nextId
    ∧ (armReconnect st).nextId = st.nextId + 1 := by
  obtain ⟨hnd, hbnd, hrb, hhb, htrack⟩ := h
  have hnorec := (countReconnect_zero_iff st).mp h0
  refine ⟨⟨?_, ?_, ?_, ?_, ?_⟩, ?_, ?_, rfl, rfl, rfl, rfl, rfl⟩
  · show (st.liveTimers ++ [(st.nextId, TimerKind.reconnect)]).Nodup
    rw [List.nodup_append]
    refine ⟨hnd, List.nodup_singleton _, ?_⟩
    intro p hp hq
    simp only [List.mem_singleton] at hq
    subst hq
    exact absurd (hbnd _ hp) (lt_irrefl _)
  · intro p hp
    simp only [armReconnect, List.mem_append, List.mem_singleton] at hp
    show p.1 < st.nextId + 1
    rcases hp with hp | hp
    · have := hbnd p hp
      omega
    · subst hp
      omega
  · intro k hk
    simp only [armReconnect] at hk
    injection hk with hk
    show k < st.nextId + 1
    omega
  · intro k hk
    simp only [armReconnect] at hk
    have := hhb k hk
    show k < st.nextId + 1
    omega
  · intro p hp
    simp only [armReconnect, List.mem_append, List.mem_singleton] at hp
    rcases hp with hp | hp
    · constructor
      · intro hk
        exact absurd hk (hnorec p hp)
      · intro hk
        exact htrack p hp |>.2 hk
    · subst hp
      constructor
      · intro _
        rfl
      · intro hk
        cases hk
  · unfold countReconnect
    show ((st.liveTimers ++ [(st.nextId, TimerKind.reconnect)]).filter _).length = 1
    rw [List.filter_append]
    have h1 : st.liveTimers.filter (fun p => decide (p.2 = TimerKind.reconnect)) = [] := by
      rw [List.filter_eq_nil_iff]
      intro p hp
      simpa using hnorec p hp
    rw [h1]
    simp
  · unfold countHeartbeat
    show ((st.liveTimers ++ [(st.nextId, TimerKind.reconnect)]).filter _).length = _
    rw [List.filter_append]
    simp

lemma armHeartbeat_spec (st : ClientState) (h : timerInv st)
    (h0 : countHeartbeat st = 0) :
    timerInv (armHeartbeat st)
    ∧ countHeartbeat (armHeartbeat st) = 1
    ∧ countReconnect (armHeartbeat st) = countReconnect st := by
  obtain ⟨hnd, hbnd, hrb, hhb, htrack⟩ := h
  have hnohb := (countHeartbeat_zero_iff st).mp h0
  refine ⟨⟨?_, ?_, ?_, ?_, ?_⟩, ?_, ?_⟩
  · show (st.liveTimers ++ [(st.nextId, TimerKind.heartbeat)]).Nodup
    rw [List.nodup_append]
    refine ⟨hnd, List.nodup_singleton _, ?_⟩
    intro p hp hq
    simp only [List.mem_singleton] at hq
    subst hq
    exact absurd (hbnd _ hp) (lt_irrefl _)
  · intro p hp
    simp only [armHeartbeat, List.mem_append, List.mem_singleton] at hp
    show p.1 < st.nextId + 1
    rcases hp with hp | hp
    · have := hbnd p hp
      omega
    · subst hp
      omega
  · intro k hk
    simp only [armHeartbeat] at hk
    have := hrb k hk
    show k < st.nextId + 1
    omega
  · intro k hk
    simp only [armHeartbeat] at hk
    injection hk with hk
    show k < st.nextId + 1
    omega
  · intro p hp
    simp only [armHeartbeat, List.mem_append, List.mem_singleton] at hp
    rcases hp with hp | hp
    · constructor
      · intro hk
        exact htrack p hp |>.1 hk
      · intro hk
        exact absurd hk (hnohb p hp)
    · subst hp
      constructor
      · intro hk
        cases hk
      · intro _
        rfl
  · unfold countHeartbeat
    show ((st.liveTimers ++ [(st.nextId, TimerKind.heartbeat)]).filter _).length = 1
    rw [List.filter_append]
    have h1 : st.liveTimers.filter (fun p => decide (p.2 = TimerKind.heartbeat)) = [] := by
      rw [List.filter_eq_nil_iff]
      intro p hp
      simpa using hnohb p hp
    rw [h1]
    simp
  · unfold countReconnect
    show ((st.liveTimers ++ [(st.nextId, TimerKind.heartbeat)]).filter _).length = _
    rw [List.filter_append]
    simp

lemma schedule_reconnect_spec (st : ClientState) (h : timerInv st) :
    timerInv (schedule_reconnect st)
    ∧ countReconnect (schedule_reconnect st) = 1
    ∧ countHeartbeat (schedule_reconnect st) ≤ countHeartbeat st := by
  obtain ⟨hci, hc0, hch, -, -, -, -, -⟩ := clearReconnect_spec st h
  obtain ⟨hai, ha1, haeq, -, -, -, -, -⟩ := armReconnect_spec _ hci hc0
  unfold schedule_reconnect
  exact ⟨hai, ha1, le_trans (le_of_eq haeq) hch⟩

lemma start_heartbeat_spec (st : ClientState) (h : timerInv st) :
    timerInv (start_heartbeat st)
    ∧ countHeartbeat (start_heartbeat st) = 1
    ∧ countReconnect (start_heartbeat st) ≤ countReconnect st := by
  obtain ⟨hci, hc0, hcr, -, -, -, -, -⟩ := clearHeartbeat_spec st h
  obtain ⟨hai, ha1, haeq⟩ := armHeartbeat_spec _ hci hc0
  unfold start_heartbeat
  exact ⟨hai, ha1, le_trans (le_of_eq haeq) hcr⟩

lemma connect_success_spec (st : ClientState) (h : timerInv st) :
    timerInv (connect_success st)
    ∧ countReconnect (connect_success st) = 0
    ∧ countHeartbeat (connect_success st) = 1 := by
  have h1 : timerInv (connect_install st) :=
    timerInv_irrelevant st _ rfl rfl rfl (Nat.le_succ _) h
  obtain ⟨hci, hc0, -, -, -, -, -, -⟩ := clearReconnect_spec (connect_install st) h1
  obtain ⟨hhi, -, hhr, -, -, -, -, -⟩ :=
    clearHeartbeat_spec (clearReconnectTimer (connect_install st)) hci
  have hr2 : countReconnect
      (clearHeartbeatTimer (clearReconnectTimer (connect_install st))) = 0 := by
    omega
  have h3 : timerInv (connect_start_listen
      (clearHeartbeatTimer (clearReconnectTimer (connect_install st)))) :=
    timerInv_irrelevant (clearHeartbeatTimer (clearReconnectTimer (connect_install st)))
      (connect_start_listen (clearHeartbeatTimer (clearReconnectTimer (connect_install st))))
      rfl rfl rfl (Nat.le_succ _) hhi
  have hcnt3 := count_eq_of_timers_eq
    (connect_start_listen (clearHeartbeatTimer (clearReconnectTimer (connect_install st))))
    (clearHeartbeatTimer (clearReconnectTimer (connect_install st))) rfl
  obtain ⟨hsi, hs1, hsr⟩ := start_heartbeat_spec _ h3
  unfold connect_success
  refine ⟨hsi, ?_, hs1⟩
  have := hcnt3.1
  omega

lemma connect_spec (st : ClientState) (h : timerInv st) (ok : Bool) :
    timerInv (connect st ok)
    ∧ countReconnect (connect st ok) ≤ 1
    ∧ countHeartbeat (connect st ok) ≤ 1 := by
  by_cases hrun : st.running = true
  · cases ok with
    | false =>
      rw [show connect st false = schedule_reconnect st from by simp [connect, hrun]]
      obtain ⟨hi, h1, hh⟩ := schedule_reconnect_spec st h
      exact ⟨hi, by omega, le_trans hh (counts_le_one st h).2⟩
    | true =>
      rw [show connect st true = connect_success st from by simp [connect, hrun]]
      obtain ⟨hi, h0, h1⟩ := connect_success_spec st h
      exact ⟨hi, by omega, by omega⟩
  · have hfalse : st.running = false := by simpa using hrun
    rw [show connect st ok = st from by simp [connect, hfalse]]
    exact ⟨h, (counts_le_one st h).1, (counts_le_one st h).2⟩

lemma filter_filter_of_imp {α : Type _} (p q : α → Bool) (l : List α)
    (h : ∀ x ∈ l, q x = true → p x = true) :
    (l.filter p).filter q = l.filter q := by
  induction l with
  | nil => rfl
  | cons x t ih =>
    have h' : ∀ y ∈ t, q y = true → p y = true :=
      fun y hy => h y (List.mem_cons_of_mem _ hy)
    by_cases hq : q x = true
    · have hp : p x = true := h x (List.mem_cons_self _ _) hq
      rw [List.filter_cons_of_pos hp, List.filter_cons_of_pos hq,
        List.filter_cons_of_pos hq, ih h']
    · by_cases hp : p x = true
      · rw [List.filter_cons_of_pos hp, List.filter_cons_of_neg (by simpa using hq),
          List.filter_cons_of_neg (by simpa using hq), ih h']
      · rw [List.filter_cons_of_neg (by simpa using hp),
          List.filter_cons_of_neg (by simpa using hq), ih h']

/-- Cancelling the heartbeat handle leaves the reconnect count untouched
whenever no live reconnect timer shares the heartbeat handle. -/
lemma clearHeartbeat_countReconnect (s : ClientState)
    (hsep : ∀ k, s.heartbeatTask = some k →
      ∀ p ∈ s.liveTimers, p.2 = TimerKind.reconnect → p.1 ≠ k) :
    countReconnect (clearHeartbeatTimer s) = countReconnect s := by
  unfold clearHeartbeatTimer
  cases hr : s.heartbeatTask with
  | none => rfl
  | some k =>
    unfold countReconnect
    show ((cancelTimer s.liveTimers k).filter _).length = _
    unfold cancelTimer
    rw [filter_filter_of_imp]
    intro p hp hq
    have hk : p.2 = TimerKind.reconnect := by simpa using hq
    simpa using hsep k hr p hp hk

lemma close_sock_fields (st : ClientState) :
    (close_sock st).liveTimers = st.liveTimers
    ∧ (close_sock st).reconnectTask = st.reconnectTask
    ∧ (close_sock st).heartbeatTask = st.heartbeatTask
    ∧ (close_sock st).nextId = st.nextId
    ∧ (close_sock st).running = st.running := by
  unfold close_sock
  cases st.sock <;> exact ⟨rfl, rfl, rfl, rfl, rfl⟩

/-- `_handle_disconnect` on a running session with no pending reconnect timer:
the resulting state has exactly one live reconnect timer (and satisfies the
bookkeeping invariant). -/
lemma handle_disconnect_spec (st : ClientState) (h : timerInv st)
    (h0 : countReconnect st = 0) :
    timerInv (handle_disconnect st)
    ∧ countReconnect (handle_disconnect st) ≤ 1
    ∧ (st.running = true → countReconnect (handle_disconnect st) = 1) := by
  by_cases hrun : st.running = true
  · rw [show handle_disconnect st = close_connection (armReconnect st) from by
      simp [handle_disconnect, hrun]]
    obtain ⟨hai, ha1, -, -, hah, halive, -, -⟩ := armReconnect_spec st h h0
    have hnorec := (countReconnect_zero_iff st).mp h0
    -- the intermediate state of close_connection with the listen task cleared
    have h1 : timerInv { armReconnect st with listenTask := none } :=
      timerInv_irrelevant (armReconnect st) _ rfl rfl rfl le_rfl hai
    obtain ⟨hhi, -, -, -, -, -, -, -⟩ :=
      clearHeartbeat_spec { armReconnect st with listenTask := none } h1
    have hsep : ∀ k, ({ armReconnect st with listenTask := none } : ClientState).heartbeatTask = some k →
        ∀ p ∈ ({ armReconnect st with listenTask := none } : ClientState).liveTimers,
          p.2 = TimerKind.reconnect → p.1 ≠ k := by
      intro k hk p hp hpk
      have hk' : st.heartbeatTask = some k := by rwa [show ({ armReconnect st with listenTask := none } : ClientState).heartbeatTask = st.heartbeatTask from hah] at hk
      have hkb := h.2.2.2.1 k hk'
      have hp' : p ∈ st.liveTimers ++ [(st.nextId, TimerKind.reconnect)] := by
        rwa [show ({ armReconnect st with listenTask := none } : ClientState).liveTimers = st.liveTimers ++ [(st.nextId, TimerKind.reconnect)] from halive] at hp
      rcases List.mem_append.mp hp' with hp2 | hp2
      · exact absurd hpk (hnorec p hp2)
      · simp only [List.mem_singleton] at hp2
        subst hp2
        omega
    have hcr : countReconnect (clearHeartbeatTimer { armReconnect st with listenTask := none })
        = countReconnect { armReconnect st with listenTask := none } :=
      clearHeartbeat_countReconnect _ hsep
    have hcr2 : countReconnect { armReconnect st with listenTask := none }
        = countReconnect (armReconnect st) :=
      (count_eq_of_timers_eq _ _ rfl).1
    have hclose := close_sock_fields (clearHeartbeatTimer { armReconnect st with listenTask := none })
    have hcr3 : countReconnect (close_connection (armReconnect st))
        = countReconnect (clearHeartbeatTimer { armReconnect st with listenTask := none }) := by
      unfold close_connection
      exact (count_eq_of_timers_eq _ _ hclose.1).1
    have hfinal : countReconnect (close_connection (armReconnect st)) = 1 := by
      rw [hcr3, hcr, hcr2, ha1]
    refine ⟨?_, by omega, fun _ => hfinal⟩
    unfold close_connection
    exact timerInv_irrelevant _ _ hclose.1 hclose.2.1 hclose.2.2.1
      (le_of_eq hclose.2.2.2.1.symm) hhi
  · have hfalse : st.running = false := by simpa using hrun
    rw [show handle_disconnect st = st from by simp [handle_disconnect, hfalse]]
    exact ⟨h, by omega, fun hcon => absurd hcon hrun⟩

lemma timerInv_initClient : timerInv initClient := by
  refine ⟨List.nodup_nil, ?_, ?_, ?_, ?_⟩
  · intro p hp
    cases hp
  · intro k hk
    cases hk
  · intro k hk
    cases hk
  · intro p hp
    cases hp

/-! ## Claim C2: at most one outstanding timer per kind -/

/-- Counterexample to C2: connect successfully (listen loop running on socket
0, heartbeat timer 2 armed), then call connect() again while still connected
and have the attempt fail — `_schedule_reconnect` arms reconnect timer 3 —
then suffer a read failure on the still-live connection: `_handle_disconnect`
arms reconnect timer 4 without cancelling any prior instance, leaving two
reconnect timers outstanding at once. -/
theorem C2_counterexample :
    countReconnect (runClient [ClientEvent.connectAttempt true,
      ClientEvent.connectAttempt false, ClientEvent.readFail]) = 2
    ∧ (runClient [ClientEvent.connectAttempt true,
      ClientEvent.connectAttempt false, ClientEvent.readFail]).liveTimers
      = [(3, TimerKind.reconnect), (4, TimerKind.reconnect)] := by
  decide

/-- C2 as amended: `_schedule_reconnect` and `_start_heartbeat` cancel the
tracked prior instance of their kind before arming, so each leaves exactly one
live timer of its kind; `connect` preserves at-most-one-per-kind for both
outcomes; and after a read failure from a state with no pending reconnect
timer, `_handle_disconnect` arms exactly one reconnect timer and a manual
`connect` during that backoff window leaves at most one — but
`_handle_disconnect` itself arms without cancelling, so a state with a live
reconnect timer at read-failure time yields two (see the counterexample). -/
theorem C2_timer_discipline (st : ClientState) (h : timerInv st) :
    (timerInv (schedule_reconnect st) ∧ countReconnect (schedule_reconnect st) = 1)
    ∧ (timerInv (start_heartbeat st) ∧ countHeartbeat (start_heartbeat st) = 1)
    ∧ (∀ ok, timerInv (connect st ok) ∧ countReconnect (connect st ok) ≤ 1
        ∧ countHeartbeat (connect st ok) ≤ 1)
    ∧ (countReconnect st = 0 →
        timerInv (handle_disconnect st)
        ∧ (st.running = true → countReconnect (handle_disconnect st) = 1)
        ∧ ∀ ok, countReconnect (connect (handle_disconnect st) ok) ≤ 1) := by
  refine ⟨⟨(schedule_reconnect_spec st h).1, (schedule_reconnect_spec st h).2.1⟩,
    ⟨(start_heartbeat_spec st h).1, (start_heartbeat_spec st h).2.1⟩,
    fun ok => connect_spec st h ok, ?_⟩
  intro h0
  obtain ⟨hi, hle, heq⟩ := handle_disconnect_spec st h h0
  exact ⟨hi, heq, fun ok => (connect_spec _ hi ok).2.1⟩

/-- Witness for C2's amended theorem at the fresh client state. -/
theorem C2_timer_discipline_witness :
    countReconnect (schedule_reconnect initClient) = 1
    ∧ countHeartbeat (start_heartbeat initClient) = 1
    ∧ countReconnect (handle_disconnect initClient) = 1 := by
  refine ⟨(C2_timer_discipline initClient timerInv_initClient).1.2,
    (C2_timer_discipline initClient timerInv_initClient).2.1.2, ?_⟩
  exact ((C2_timer_discipline initClient timerInv_initClient).2.2.2 (by decide)).2.1 rfl

/-- Witness for C8: an unparsable one-byte frame followed by a recognized
device frame. -/
theorem C8_decode_error_recovery_witness :
    listen_step
      (fun f => if f = [103] then some (true, [[("id", AttrVal.s "A")]]) else none)
      initClient ([98] ++ MESSAGE_DELIMITER ++ [103] ++ MESSAGE_DELIMITER)
      = { initClient with
            buffer := [],
            data := (handle_device_data initClient.data [[("id", AttrVal.s "A")]]).1,
            decodeErrors := initClient.decodeErrors + 1 } :=
  C8_decode_error_recovery
    (fun f => if f = [103] then some (true, [[("id", AttrVal.s "A")]]) else none)
    initClient [98] [103] [[("id", AttrVal.s "A")]]
    rfl (by decide) (by decide) (by decide) (by decide)

end Yuelly
